import Mathlib

/-!
# FOCMotor: motor-state estimator, monitor and command interface

A shallow embedding of `src/common/base_classes/FOCMotor.cpp`.

Modelling conventions.

* C `float` values are exact rationals (`ℚ`): rounding is abstracted away, every
  arithmetic operation is the exact one.
* C `int` values are integers (`ℤ`); an `int` used in float arithmetic is cast to `ℚ`,
  as the usual arithmetic conversions do.
* A method of the class is a function of the motor state that returns its result together
  with the motor state after the call.
* The sensor, the current sensor and the monitoring port are non-owning pointers; a null
  pointer is `none`.  What a method prints on the monitoring port is returned as the list
  of `print`/`println` calls it made, in order.
-/

namespace FOC

/-! ## Data model -/

/-- Motion control modes (`MotionControlType`), as named in `FOCMotor::monitor` and in the
`C` command. -/
inductive MotionControlType where
  | torque
  | velocity
  | angle
  | velocity_openloop
  | angle_openloop
  deriving DecidableEq, Repr

/-- Torque control modes (`TorqueControlType`), as named in the `T` command. -/
inductive TorqueControlType where
  | voltage
  | current
  | foc_current
  deriving DecidableEq, Repr

/-- Modulation selector (`FOCModulationType`); the constructor names `SinePWM`, the other
strategies are not distinguished by this file. -/
inductive FOCModulationType where
  | SinePWM
  | other (code : ℕ)
  deriving DecidableEq, Repr

/-- The d/q voltage pair (`voltage.d`, `voltage.q`). -/
structure DQVoltage_s where
  d : ℚ
  q : ℚ
  deriving DecidableEq, Repr

/-- The d/q current pair (`current.d`, `current.q`). -/
structure DQCurrent_s where
  d : ℚ
  q : ℚ
  deriving DecidableEq, Repr

/-- The parameters of the velocity PID that the command handler reads and writes
(`PID_velocity.P`, `.I`, `.D`, `.output_ramp`, `.limit`). -/
structure PIDController where
  P : ℚ
  I : ℚ
  D : ℚ
  output_ramp : ℚ
  limit : ℚ
  deriving DecidableEq, Repr

/-- The parameters of the angle controller that the command handler reads and writes
(`P_angle.P`, `P_angle.limit`). -/
structure PController where
  P : ℚ
  limit : ℚ
  deriving DecidableEq, Repr

/-- The velocity low-pass filter object: its time constant `Tf`, written by the `F`
command, and the memory the filter keeps between two calls. -/
structure LowPassFilter where
  Tf : ℚ
  y_prev : ℚ
  deriving DecidableEq, Repr

/-- A linked angle sensor, seen through what `sensor->getAngle()` and
`sensor->getVelocity()` return when the estimator reads it. -/
structure Sensor where
  getAngle : ℚ
  getVelocity : ℚ
  deriving DecidableEq, Repr

/-- A linked current sensor; the file only stores the pointer. -/
structure CurrentSense where
  id : ℕ
  deriving DecidableEq, Repr

/-- The output sink behind `monitor_port`; the file only stores the pointer and prints
through it. -/
structure Print where
  id : ℕ
  deriving DecidableEq, Repr

/-- The member variables of `FOCMotor` that the source file names. -/
structure FOCMotor where
  velocity_limit : ℚ
  voltage_limit : ℚ
  current_limit : ℚ
  velocity_index_search : ℚ
  voltage_sensor_align : ℚ
  foc_modulation : FOCModulationType
  target : ℚ
  voltage : DQVoltage_s
  current_sp : ℚ
  current : DQCurrent_s
  monitor_port : Option Print
  sensor : Option Sensor
  current_sense : Option CurrentSense
  shaft_angle : ℚ
  shaft_velocity : ℚ
  shaft_velocity_sp : ℚ
  shaft_angle_sp : ℚ
  sensor_direction : ℤ
  sensor_offset : ℚ
  pole_pairs : ℤ
  zero_electric_angle : ℚ
  controller : MotionControlType
  torque_controller : TorqueControlType
  PID_velocity : PIDController
  P_angle : PController
  LPF_velocity : LowPassFilter
  deriving DecidableEq, Repr

/-! ## Sensor linking -/

/-- Method `FOCMotor::linkSensor`: stores the sensor pointer. -/
def linkSensor (m : FOCMotor) (_sensor : Option Sensor) : FOCMotor :=
  { m with sensor := _sensor }

/-- Method `FOCMotor::linkCurrentSense`: stores the current-sensor pointer. -/
def linkCurrentSense (m : FOCMotor) (_current_sense : Option CurrentSense) : FOCMotor :=
  { m with current_sense := _current_sense }

/-! ## Motor state estimator -/

/-- Method `FOCMotor::shaftAngle`: the stored angle when no sensor is linked, otherwise
`sensor_direction*sensor->getAngle() - sensor_offset`.  No member is assigned. -/
def shaftAngle (m : FOCMotor) : ℚ × FOCMotor :=
  match m.sensor with
  | none => (m.shaft_angle, m)
  | some s => ((m.sensor_direction : ℚ) * s.getAngle - m.sensor_offset, m)

/-- Method `FOCMotor::shaftVelocity`: the stored velocity when no sensor is linked, otherwise
`sensor_direction*LPF_velocity(sensor->getVelocity())`.  The call operator of the filter
is not part of the source file: it is the parameter `LPF`, which maps the filter object
and its input to the filter output and the filter object after the call. -/
def shaftVelocity (LPF : LowPassFilter → ℚ → ℚ × LowPassFilter) (m : FOCMotor) :
    ℚ × FOCMotor :=
  match m.sensor with
  | none => (m.shaft_velocity, m)
  | some s =>
    let r := LPF m.LPF_velocity s.getVelocity
    ((m.sensor_direction : ℚ) * r.1, { m with LPF_velocity := r.2 })

/-- Modelled from the spec: the helper `_normalizeAngle` is declared outside the source
file.  The spec's normalization policy is "angle is wrapped into `[0, 2π)` using modular
arithmetic; negative inputs wrap correctly (not truncation)": the angle is reduced modulo
the period by a floored division.  The period `_2PI` is a constant of the same absent
header and is a parameter. -/
def _normalizeAngle (_2PI : ℚ) (angle : ℚ) : ℚ :=
  angle - _2PI * (⌊angle / _2PI⌋ : ℚ)

/-- Method `FOCMotor::electricalAngle`:
`_normalizeAngle((shaft_angle + sensor_offset) * pole_pairs - zero_electric_angle)`,
from the stored `shaft_angle`.  No member is assigned. -/
def electricalAngle (_2PI : ℚ) (m : FOCMotor) : ℚ × FOCMotor :=
  (_normalizeAngle _2PI
    ((m.shaft_angle + m.sensor_offset) * (m.pole_pairs : ℚ) - m.zero_electric_angle), m)

/-- A motor state used to evaluate the definitions: no sensor, no monitoring port. -/
def motor0 : FOCMotor where
  velocity_limit := 20
  voltage_limit := 12
  current_limit := 1/2
  velocity_index_search := 1
  voltage_sensor_align := 6
  foc_modulation := FOCModulationType.SinePWM
  target := 0
  voltage := ⟨0, 0⟩
  current_sp := 0
  current := ⟨0, 0⟩
  monitor_port := none
  sensor := none
  current_sense := none
  shaft_angle := -3
  shaft_velocity := 2
  shaft_velocity_sp := 0
  shaft_angle_sp := 0
  sensor_direction := -1
  sensor_offset := 1/4
  pole_pairs := 7
  zero_electric_angle := 1/2
  controller := MotionControlType.velocity
  torque_controller := TorqueControlType.voltage
  PID_velocity := ⟨1/2, 10, 0, 1000, 12⟩
  P_angle := ⟨20, 20⟩
  LPF_velocity := ⟨1/100, 0⟩

/-- A filter operator used to evaluate `shaftVelocity`: a first-order filter with a fixed
step of one millisecond. -/
def lpfStep (f : LowPassFilter) (x : ℚ) : ℚ × LowPassFilter :=
  let alpha := f.Tf / (f.Tf + 1/1000)
  let y := alpha * f.y_prev + (1 - alpha) * x
  (y, { f with y_prev := y })

/-! ## Monitoring -/

/-- One call on the monitoring port: `print`/`println` of a text or of a float. -/
inductive PrintCall where
  | print (text : String)
  | println (text : String)
  | printFloat (value : ℚ)
  | printlnFloat (value : ℚ)
  deriving DecidableEq, Repr

/-- The guarded call `if(monitor_port) monitor_port->...`: the call is appended to what was
printed so far when a port is attached, and nothing happens otherwise. -/
def emit (m : FOCMotor) (out : List PrintCall) (c : PrintCall) : List PrintCall :=
  if m.monitor_port.isSome then out ++ [c] else out

/-- Method `FOCMotor::useMonitoring`: attaches the port and prints the greeting on it. -/
def useMonitoring (m : FOCMotor) (print : Print) : FOCMotor × List PrintCall :=
  let m1 := { m with monitor_port := some print }
  (m1, emit m1 [] (PrintCall.println "MOT: Monitor enabled!"))

/-- Method `FOCMotor::monitor`: nothing without a port; otherwise one row of three values chosen
by `controller`.  Returns the motor state after the call and the calls made on the port. -/
def monitor (m : FOCMotor) : FOCMotor × List PrintCall :=
  if m.monitor_port.isNone then (m, []) else
  match m.controller with
  | MotionControlType.velocity_openloop | MotionControlType.velocity =>
    (m, [PrintCall.printFloat m.voltage.q, PrintCall.print "\t",
         PrintCall.printFloat m.shaft_velocity_sp, PrintCall.print "\t",
         PrintCall.printlnFloat m.shaft_velocity])
  | MotionControlType.angle_openloop | MotionControlType.angle =>
    (m, [PrintCall.printFloat m.voltage.q, PrintCall.print "\t",
         PrintCall.printFloat m.shaft_angle_sp, PrintCall.print "\t",
         PrintCall.printlnFloat m.shaft_angle])
  | MotionControlType.torque =>
    (m, [PrintCall.printFloat m.voltage.q, PrintCall.print "\t",
         PrintCall.printFloat m.shaft_angle, PrintCall.print "\t",
         PrintCall.printlnFloat m.shaft_velocity])

/-! ## The Arduino `String` operations used by the command handler

`String` is the Arduino core class, outside the repository.  The handler uses `length`,
`charAt`, `substring` and `toFloat`; they are modelled on the characters of the string. -/

/-- Method `String::length`. -/
def length (s : String) : ℕ := s.data.length

/-- Method `String::charAt`: the character at `loc`, and the NUL character when `loc` is past the
end of the string. -/
def charAt (s : String) (loc : ℕ) : Char := s.data.getD loc (Char.ofNat 0)

/-- Method `String::substring(left)`: the characters from index `left` to the end, empty when
`left` is past the end. -/
def substring (s : String) (left : ℕ) : String := String.mk (s.data.drop left)

/-- C `isspace` in the default locale. -/
def isSpace (c : Char) : Bool :=
  c = ' ' || c = '\t' || c = '\n' || c = Char.ofNat 11 || c = Char.ofNat 12 || c = '\r'

/-- Drops the leading white space. -/
def skipSpace : List Char → List Char
  | [] => []
  | c :: cs => if isSpace c then skipSpace cs else c :: cs

/-- Reads a run of decimal digits: `acc` is the number read so far and `cnt` the number
of digits read so far; returns both and the unread characters. -/
def readDigits (acc cnt : ℕ) : List Char → ℕ × ℕ × List Char
  | [] => (acc, cnt, [])
  | c :: cs =>
    if c.isDigit then readDigits (10 * acc + (c.toNat - 48)) (cnt + 1) cs
    else (acc, cnt, c :: cs)

/-- Reads an optional sign: `true` for a minus sign. -/
def readSign : List Char → Bool × List Char
  | [] => (false, [])
  | c :: cs => if c = '-' then (true, cs) else if c = '+' then (false, cs) else (false, c :: cs)

/-- Reads an optional decimal exponent `e[+-]digits`; an `e` that no digit follows is not
an exponent. -/
def readExponent : List Char → ℤ
  | [] => 0
  | c :: cs =>
    if c = 'e' || c = 'E' then
      let sg := readSign cs
      let ds := readDigits 0 0 sg.2
      if ds.2.1 = 0 then 0 else if sg.1 then -(ds.1 : ℤ) else (ds.1 : ℤ)
    else 0

/-- C `atof` on a decimal literal: leading white space, an optional sign, digits with an
optional decimal point, an optional exponent; what follows the literal is ignored and the
result is `0` when there is no literal.  (The spellings of infinity and NaN, which have no
rational value, are read as no literal.) -/
def atof (cs : List Char) : ℚ :=
  let sg := readSign (skipSpace cs)
  let ip := readDigits 0 0 sg.2
  let fp : ℕ × ℕ × List Char :=
    match ip.2.2 with
    | [] => (ip.1, 0, [])
    | c :: r => if c = '.' then readDigits ip.1 0 r else (ip.1, 0, c :: r)
  if ip.2.1 + fp.2.1 = 0 then 0
  else
    let e := readExponent fp.2.2
    (if sg.1 then -1 else 1) * (fp.1 : ℚ) * (10 : ℚ) ^ (e - (fp.2.1 : ℤ))

/-- Method `String::toFloat`: `atof` on the characters of the string. -/
def toFloat (s : String) : ℚ := atof s.data

/-- The cast `(int)value` of a float: truncation toward zero. -/
def toInt (value : ℚ) : ℤ := Int.tdiv value.num (value.den : ℤ)

/-! ## Command handler -/

/-- What a call of `command` yields: the returned `int`, the motor state after the call
and the calls made on the monitoring port. -/
structure CommandResult where
  ret : ℤ
  motor : FOCMotor
  out : List PrintCall
  deriving DecidableEq, Repr

/-- The first `switch(cmd)` of `FOCMotor::command`: the group label of the keys
`P I D R`, `F`, `K` and `L N`; no label for any other key. -/
def commandLabel (m : FOCMotor) (cmd : Char) : List PrintCall :=
  if cmd = 'P' ∨ cmd = 'I' ∨ cmd = 'D' ∨ cmd = 'R' then
    emit m [] (PrintCall.print " PID velocity| ")
  else if cmd = 'F' then emit m [] (PrintCall.print " LPF velocity| ")
  else if cmd = 'K' then emit m [] (PrintCall.print " PID angle| ")
  else if cmd = 'L' ∨ cmd = 'N' then emit m [] (PrintCall.print " Limits| ")
  else []

/-- The name `case 'C'` prints for a motion control mode. -/
def controllerName : MotionControlType → String
  | MotionControlType.torque => "torque"
  | MotionControlType.velocity => "velocity"
  | MotionControlType.angle => "angle"
  | MotionControlType.velocity_openloop => "velocity openloop"
  | MotionControlType.angle_openloop => "angle openloop"

/-- The name `case 'T'` prints for a torque control mode. -/
def torqueControllerName : TorqueControlType → String
  | TorqueControlType.voltage => "voltage"
  | TorqueControlType.current => "current"
  | TorqueControlType.foc_current => "foc current"

/-- Branch `case 'C'` of the second switch.  `errorFlag` is `1` on entry. -/
def commandC (m : FOCMotor) (GET : Bool) (value : ℚ) (out : List PrintCall) :
    CommandResult :=
  let out := emit m out (PrintCall.print "Control: ")
  if GET then
    match m.controller with
    | MotionControlType.torque => ⟨1, m, emit m out (PrintCall.println "torque")⟩
    | MotionControlType.velocity => ⟨1, m, emit m out (PrintCall.println "velocity")⟩
    | MotionControlType.angle => ⟨1, m, emit m out (PrintCall.println "angle")⟩
    | MotionControlType.velocity_openloop =>
      ⟨1, m, emit m out (PrintCall.println "velocity openloop")⟩
    | MotionControlType.angle_openloop =>
      ⟨1, m, emit m out (PrintCall.println "angle openloop")⟩
  else
    let n := toInt value
    if n = 0 then
      ⟨1, { m with controller := MotionControlType.torque },
        emit m out (PrintCall.println "torque")⟩
    else if n = 1 then
      ⟨1, { m with controller := MotionControlType.velocity },
        emit m out (PrintCall.println "velocity")⟩
    else if n = 2 then
      ⟨1, { m with controller := MotionControlType.angle },
        emit m out (PrintCall.println "angle")⟩
    else if n = 3 then
      ⟨1, { m with controller := MotionControlType.velocity_openloop },
        emit m out (PrintCall.println "velocity openloop")⟩
    else if n = 4 then
      ⟨1, { m with controller := MotionControlType.angle_openloop },
        emit m out (PrintCall.println "angle openloop")⟩
    else ⟨0, m, emit m out (PrintCall.println "error")⟩

/-- Branch `case 'T'` of the second switch.  `errorFlag` is `1` on entry. -/
def commandT (m : FOCMotor) (GET : Bool) (value : ℚ) (out : List PrintCall) :
    CommandResult :=
  let out := emit m out (PrintCall.print "Torque: ")
  if GET then
    match m.torque_controller with
    | TorqueControlType.voltage => ⟨1, m, emit m out (PrintCall.println "voltage")⟩
    | TorqueControlType.current => ⟨1, m, emit m out (PrintCall.println "current")⟩
    | TorqueControlType.foc_current => ⟨1, m, emit m out (PrintCall.println "foc current")⟩
  else
    let n := toInt value
    if n = 0 then
      ⟨1, { m with torque_controller := TorqueControlType.voltage },
        emit m out (PrintCall.println "voltage")⟩
    else if n = 1 then
      ⟨1, { m with torque_controller := TorqueControlType.current },
        emit m out (PrintCall.println "current")⟩
    else if n = 2 then
      ⟨1, { m with torque_controller := TorqueControlType.foc_current },
        emit m out (PrintCall.println "foc current")⟩
    else ⟨0, m, emit m out (PrintCall.println "error")⟩

/-- Branch `case 'V'` of the second switch.  `errorFlag` is `1` on entry. -/
def commandV (m : FOCMotor) (value : ℚ) (out : List PrintCall) : CommandResult :=
  let n := toInt value
  if n = 0 then
    ⟨1, m, emit m (emit m out (PrintCall.print "Uq: ")) (PrintCall.printlnFloat m.voltage.q)⟩
  else if n = 1 then
    ⟨1, m, emit m (emit m out (PrintCall.print "Velocity: "))
      (PrintCall.printlnFloat m.shaft_velocity)⟩
  else if n = 2 then
    ⟨1, m, emit m (emit m out (PrintCall.print "Angle: "))
      (PrintCall.printlnFloat m.shaft_angle)⟩
  else if n = 3 then
    ⟨1, m, emit m (emit m out (PrintCall.print "Target: "))
      (PrintCall.printlnFloat m.target)⟩
  else ⟨0, m, out⟩

/-- Method `FOCMotor::command`.  `errorFlag` starts at `1`; the empty string returns it at once;
otherwise the key `cmd`, the flag `GET` and the parsed `value` are taken from the string,
the first switch prints the group label and the second switch applies the command. -/
def command (m : FOCMotor) (user_command : String) : CommandResult :=
  let errorFlag : ℤ := 1
  if length user_command < 1 then ⟨errorFlag, m, []⟩
  else
    let cmd := charAt user_command 0
    let GET : Bool := charAt user_command 1 == '\n'
    let value := toFloat (substring user_command 1)
    let out := commandLabel m cmd
    if cmd = 'P' then
      let out := emit m out (PrintCall.print "P: ")
      let m1 := if !GET then { m with PID_velocity := { m.PID_velocity with P := value } } else m
      ⟨errorFlag, m1, emit m out (PrintCall.printlnFloat m1.PID_velocity.P)⟩
    else if cmd = 'I' then
      let out := emit m out (PrintCall.print "I: ")
      let m1 := if !GET then { m with PID_velocity := { m.PID_velocity with I := value } } else m
      ⟨errorFlag, m1, emit m out (PrintCall.printlnFloat m1.PID_velocity.I)⟩
    else if cmd = 'D' then
      let out := emit m out (PrintCall.print "D: ")
      let m1 := if !GET then { m with PID_velocity := { m.PID_velocity with D := value } } else m
      ⟨errorFlag, m1, emit m out (PrintCall.printlnFloat m1.PID_velocity.D)⟩
    else if cmd = 'R' then
      let out := emit m out (PrintCall.print "volt_ramp: ")
      let m1 :=
        if !GET then { m with PID_velocity := { m.PID_velocity with output_ramp := value } }
        else m
      ⟨errorFlag, m1, emit m out (PrintCall.printlnFloat m1.PID_velocity.output_ramp)⟩
    else if cmd = 'L' then
      let out := emit m out (PrintCall.print "volt_limit: ")
      let m1 :=
        if !GET then
          { m with voltage_limit := value,
                   PID_velocity := { m.PID_velocity with limit := value } }
        else m
      ⟨errorFlag, m1, emit m out (PrintCall.printlnFloat m1.voltage_limit)⟩
    else if cmd = 'F' then
      let out := emit m out (PrintCall.print "Tf: ")
      let m1 := if !GET then { m with LPF_velocity := { m.LPF_velocity with Tf := value } } else m
      ⟨errorFlag, m1, emit m out (PrintCall.printlnFloat m1.LPF_velocity.Tf)⟩
    else if cmd = 'K' then
      let out := emit m out (PrintCall.print " P: ")
      let m1 := if !GET then { m with P_angle := { m.P_angle with P := value } } else m
      ⟨errorFlag, m1, emit m out (PrintCall.printlnFloat m1.P_angle.P)⟩
    else if cmd = 'N' then
      let out := emit m out (PrintCall.print "vel_limit: ")
      let m1 :=
        if !GET then
          { m with velocity_limit := value, P_angle := { m.P_angle with limit := value } }
        else m
      ⟨errorFlag, m1, emit m out (PrintCall.printlnFloat m1.velocity_limit)⟩
    else if cmd = 'C' then commandC m GET value out
    else if cmd = 'T' then commandT m GET value out
    else if cmd = 'V' then commandV m value out
    else
      let out := emit m out (PrintCall.print "Target : ")
      let m1 := { m with target := toFloat user_command }
      ⟨errorFlag, m1, emit m out (PrintCall.printlnFloat m1.target)⟩

/-- The modes the spec's key table lists for `C`, in the order of the integers `0..4`. -/
def controllerTable : List MotionControlType :=
  [MotionControlType.torque, MotionControlType.velocity, MotionControlType.angle,
   MotionControlType.velocity_openloop, MotionControlType.angle_openloop]

/-- The modes the spec's key table lists for `T`, in the order of the integers `0..2`. -/
def torqueControllerTable : List TorqueControlType :=
  [TorqueControlType.voltage, TorqueControlType.current, TorqueControlType.foc_current]

/-- The motor state `motor0` with a monitoring port attached. -/
def motor1 : FOCMotor := (useMonitoring motor0 ⟨0⟩).1

/-! ## Estimator: theorems -/

/-- C1: with a sensor linked, `shaftAngle()` returns
`sensor_direction * a - sensor_offset` for the raw angle `a` the sensor returns, and the
motor state after the call is the motor state before it. -/
theorem shaftAngle_linked (m : FOCMotor) (s : Sensor) (h : m.sensor = some s) :
    (shaftAngle m).1 = (m.sensor_direction : ℚ) * s.getAngle - m.sensor_offset ∧
    (shaftAngle m).2 = m := by
  simp [shaftAngle, h]

/-- Witness of C1: a sensor reading `3/2` linked to `motor0` gives the shaft angle `-7/4`. -/
theorem shaftAngle_linked_witness :
    (linkSensor motor0 (some ⟨3/2, 5⟩)).sensor = some ⟨3/2, 5⟩ ∧
    (shaftAngle (linkSensor motor0 (some ⟨3/2, 5⟩))).1 = -7/4 := by
  refine ⟨rfl, ?_⟩
  rw [(shaftAngle_linked (linkSensor motor0 (some ⟨3/2, 5⟩)) ⟨3/2, 5⟩ rfl).1]
  norm_num [linkSensor, motor0]

/-- C2: with no sensor linked, `shaftAngle()` returns the stored `shaft_angle` and
`shaftVelocity()` the stored `shaft_velocity`, neither call changes the motor state, and
after any number `n` of calls the next call still returns the same value. -/
theorem estimator_hold_unlinked (LPF : LowPassFilter → ℚ → ℚ × LowPassFilter)
    (m : FOCMotor) (h : m.sensor = none) (n : ℕ) :
    (shaftAngle m).1 = m.shaft_angle ∧ (shaftAngle m).2 = m ∧
    (shaftVelocity LPF m).1 = m.shaft_velocity ∧ (shaftVelocity LPF m).2 = m ∧
    (shaftAngle ((fun s => (shaftAngle s).2)^[n] m)).1 = m.shaft_angle ∧
    (shaftVelocity LPF ((fun s => (shaftVelocity LPF s).2)^[n] m)).1 = m.shaft_velocity := by
  have ha : (shaftAngle m) = (m.shaft_angle, m) := by simp [shaftAngle, h]
  have hv : (shaftVelocity LPF m) = (m.shaft_velocity, m) := by simp [shaftVelocity, h]
  have hai : (fun s => (shaftAngle s).2)^[n] m = m :=
    Function.iterate_fixed (by simp [ha]) n
  have hvi : (fun s => (shaftVelocity LPF s).2)^[n] m = m :=
    Function.iterate_fixed (by simp [hv]) n
  rw [hai, hvi, ha, hv]
  simp

/-- Witness of C2: `motor0` has no sensor, and after three calls the estimator still returns the stored values. -/
theorem estimator_hold_unlinked_witness :
    motor0.sensor = none ∧
    (shaftAngle ((fun s => (shaftAngle s).2)^[3] motor0)).1 = -3 ∧
    (shaftVelocity lpfStep ((fun s => (shaftVelocity lpfStep s).2)^[3] motor0)).1 = 2 :=
  ⟨rfl, (estimator_hold_unlinked lpfStep motor0 rfl 3).2.2.2.2.1,
    (estimator_hold_unlinked lpfStep motor0 rfl 3).2.2.2.2.2⟩

/-- C3: for every motor state (every stored `shaft_angle`, negative ones included, every
`sensor_offset`, `zero_electric_angle` and `pole_pairs`) and every positive period `_2PI`,
the value `r` that `electricalAngle()` returns satisfies `0 ≤ r < _2PI`, the normalization
being the wrapping by modular arithmetic. -/
theorem electricalAngle_range (_2PI : ℚ) (h : 0 < _2PI) (m : FOCMotor) :
    0 ≤ (electricalAngle _2PI m).1 ∧ (electricalAngle _2PI m).1 < _2PI := by
  simp only [electricalAngle, _normalizeAngle]
  generalize (m.shaft_angle + m.sensor_offset) * (m.pole_pairs : ℚ)
    - m.zero_electric_angle = a
  have h1 : (⌊a / _2PI⌋ : ℚ) ≤ a / _2PI := Int.floor_le _
  have h2 : a / _2PI < (⌊a / _2PI⌋ : ℚ) + 1 := Int.lt_floor_add_one _
  rw [le_div_iff₀ h] at h1
  rw [div_lt_iff₀ h] at h2
  constructor <;> nlinarith

/-- Witness of C3: the period `6.28318530718` and `motor0`, whose stored shaft angle is negative. -/
theorem electricalAngle_range_witness :
    (0 : ℚ) < 628318530718 / 100000000000 ∧ motor0.shaft_angle < 0 ∧
    0 ≤ (electricalAngle (628318530718 / 100000000000) motor0).1 ∧
    (electricalAngle (628318530718 / 100000000000) motor0).1 < 628318530718 / 100000000000 :=
  ⟨by norm_num, by norm_num [motor0],
    electricalAngle_range (628318530718 / 100000000000) (by norm_num) motor0⟩

/-! ## Helper lemmas on the command handler -/

/-- A string whose first character is not NUL is not empty. -/
theorem length_of_charAt_zero (s : String) (c : Char) (h : charAt s 0 = c)
    (hc : c ≠ Char.ofNat 0) : ¬ length s < 1 := by
  unfold charAt at h
  unfold length
  cases hd : s.data with
  | nil => rw [hd] at h; simp at h; exact absurd h.symm hc
  | cons a l => simp

/-- With a port attached the guarded call appends. -/
theorem emit_of_isSome (m : FOCMotor) (out : List PrintCall) (c : PrintCall)
    (h : m.monitor_port.isSome = true) : emit m out c = out ++ [c] := by
  simp [emit, h]

/-- Return value of `case 'C'`. -/
theorem commandC_ret (m : FOCMotor) (GET : Bool) (value : ℚ) (out : List PrintCall) :
    ((commandC m GET value out).ret = 0 ↔
      GET = false ∧ ¬ (0 ≤ toInt value ∧ toInt value ≤ 4)) ∧
    ((commandC m GET value out).ret = 0 ∨ (commandC m GET value out).ret = 1) := by
  unfold commandC
  cases GET <;> simp
  · split_ifs <;> simp <;> omega
  · cases m.controller <;> simp

/-- Return value of `case 'T'`. -/
theorem commandT_ret (m : FOCMotor) (GET : Bool) (value : ℚ) (out : List PrintCall) :
    ((commandT m GET value out).ret = 0 ↔
      GET = false ∧ ¬ (0 ≤ toInt value ∧ toInt value ≤ 2)) ∧
    ((commandT m GET value out).ret = 0 ∨ (commandT m GET value out).ret = 1) := by
  unfold commandT
  cases GET <;> simp
  · split_ifs <;> simp <;> omega
  · cases m.torque_controller <;> simp

/-- Return value of `case 'V'`. -/
theorem commandV_ret (m : FOCMotor) (value : ℚ) (out : List PrintCall) :
    ((commandV m value out).ret = 0 ↔ ¬ (0 ≤ toInt value ∧ toInt value ≤ 3)) ∧
    ((commandV m value out).ret = 0 ∨ (commandV m value out).ret = 1) := by
  unfold commandV
  simp
  split_ifs <;> simp <;> omega

/-- Branch `case 'C'` leaves the motor state alone when it fails. -/
theorem commandC_motor_of_fail (m : FOCMotor) (GET : Bool) (value : ℚ) (out : List PrintCall)
    (h : (commandC m GET value out).ret = 0) : (commandC m GET value out).motor = m := by
  unfold commandC at h ⊢
  cases GET
  · simp only [Bool.false_eq_true, if_false] at h ⊢
    split_ifs at h ⊢ <;> first | rfl | (simp at h)
  · simp only [if_true] at h ⊢
    cases m.controller <;> rfl

/-- Branch `case 'T'` leaves the motor state alone when it fails. -/
theorem commandT_motor_of_fail (m : FOCMotor) (GET : Bool) (value : ℚ) (out : List PrintCall)
    (h : (commandT m GET value out).ret = 0) : (commandT m GET value out).motor = m := by
  unfold commandT at h ⊢
  cases GET
  · simp only [Bool.false_eq_true, if_false] at h ⊢
    split_ifs at h ⊢ <;> first | rfl | (simp at h)
  · simp only [if_true] at h ⊢
    cases m.torque_controller <;> rfl

/-- Branch `case 'V'` never writes the motor state. -/
theorem commandV_motor (m : FOCMotor) (value : ℚ) (out : List PrintCall) :
    (commandV m value out).motor = m := by
  unfold commandV
  dsimp only
  split_ifs <;> rfl

/-- The get form of `case 'C'`. -/
theorem commandC_get (m : FOCMotor) (value : ℚ) (out : List PrintCall) :
    commandC m true value out =
      ⟨1, m, emit m (emit m out (PrintCall.print "Control: "))
        (PrintCall.println (controllerName m.controller))⟩ := by
  unfold commandC
  cases m.controller <;> rfl

/-- The set form of `case 'C'` with an integer of the table. -/
theorem commandC_set (m : FOCMotor) (value : ℚ) (out : List PrintCall) (n : ℕ)
    (c : MotionControlType) (hval : toInt value = (n : ℤ)) (hc : controllerTable[n]? = some c) :
    commandC m false value out =
      ⟨1, { m with controller := c }, emit m (emit m out (PrintCall.print "Control: "))
        (PrintCall.println (controllerName c))⟩ := by
  unfold commandC
  simp only [Bool.false_eq_true, if_false, hval]
  match n, hc with
  | 0, hc => cases (Option.some.inj hc); rfl
  | 1, hc => cases (Option.some.inj hc); rfl
  | 2, hc => cases (Option.some.inj hc); rfl
  | 3, hc => cases (Option.some.inj hc); rfl
  | 4, hc => cases (Option.some.inj hc); rfl
  | (k + 5), hc => simp [controllerTable] at hc

/-- The get form of `case 'T'`. -/
theorem commandT_get (m : FOCMotor) (value : ℚ) (out : List PrintCall) :
    commandT m true value out =
      ⟨1, m, emit m (emit m out (PrintCall.print "Torque: "))
        (PrintCall.println (torqueControllerName m.torque_controller))⟩ := by
  unfold commandT
  cases m.torque_controller <;> rfl

/-- The set form of `case 'T'` with an integer of the table. -/
theorem commandT_set (m : FOCMotor) (value : ℚ) (out : List PrintCall) (n : ℕ)
    (c : TorqueControlType) (hval : toInt value = (n : ℤ))
    (hc : torqueControllerTable[n]? = some c) :
    commandT m false value out =
      ⟨1, { m with torque_controller := c }, emit m (emit m out (PrintCall.print "Torque: "))
        (PrintCall.println (torqueControllerName c))⟩ := by
  unfold commandT
  simp only [Bool.false_eq_true, if_false, hval]
  match n, hc with
  | 0, hc => cases (Option.some.inj hc); rfl
  | 1, hc => cases (Option.some.inj hc); rfl
  | 2, hc => cases (Option.some.inj hc); rfl
  | (k + 3), hc => simp [torqueControllerTable] at hc

/-- The handler on a command whose key is `P`. -/
theorem command_key_P (m : FOCMotor) (s : String) (h : charAt s 0 = 'P') :
    command m s =
      ⟨1,
        if charAt s 1 = '\n' then m
        else
          { m with PID_velocity := { m.PID_velocity with P := toFloat (substring s 1) } },
        emit m (emit m (emit m [] (PrintCall.print " PID velocity| ")) (PrintCall.print "P: "))
          (PrintCall.printlnFloat
            (if charAt s 1 = '\n' then m.PID_velocity.P else toFloat (substring s 1)))⟩ := by
  have hl := length_of_charAt_zero s 'P' h (by decide)
  by_cases hg : charAt s 1 = '\n' <;> simp [command, hl, h, hg, commandLabel]

/-- The handler on a command whose key is `I`. -/
theorem command_key_I (m : FOCMotor) (s : String) (h : charAt s 0 = 'I') :
    command m s =
      ⟨1,
        if charAt s 1 = '\n' then m
        else
          { m with PID_velocity := { m.PID_velocity with I := toFloat (substring s 1) } },
        emit m (emit m (emit m [] (PrintCall.print " PID velocity| ")) (PrintCall.print "I: "))
          (PrintCall.printlnFloat
            (if charAt s 1 = '\n' then m.PID_velocity.I else toFloat (substring s 1)))⟩ := by
  have hl := length_of_charAt_zero s 'I' h (by decide)
  by_cases hg : charAt s 1 = '\n' <;> simp [command, hl, h, hg, commandLabel]

/-- The handler on a command whose key is `D`. -/
theorem command_key_D (m : FOCMotor) (s : String) (h : charAt s 0 = 'D') :
    command m s =
      ⟨1,
        if charAt s 1 = '\n' then m
        else
          { m with PID_velocity := { m.PID_velocity with D := toFloat (substring s 1) } },
        emit m (emit m (emit m [] (PrintCall.print " PID velocity| ")) (PrintCall.print "D: "))
          (PrintCall.printlnFloat
            (if charAt s 1 = '\n' then m.PID_velocity.D else toFloat (substring s 1)))⟩ := by
  have hl := length_of_charAt_zero s 'D' h (by decide)
  by_cases hg : charAt s 1 = '\n' <;> simp [command, hl, h, hg, commandLabel]

/-- The handler on a command whose key is `R`. -/
theorem command_key_R (m : FOCMotor) (s : String) (h : charAt s 0 = 'R') :
    command m s =
      ⟨1,
        if charAt s 1 = '\n' then m
        else
          { m with PID_velocity := { m.PID_velocity with output_ramp := toFloat (substring s 1) } },
        emit m (emit m (emit m [] (PrintCall.print " PID velocity| ")) (PrintCall.print "volt_ramp: "))
          (PrintCall.printlnFloat
            (if charAt s 1 = '\n' then m.PID_velocity.output_ramp else toFloat (substring s 1)))⟩ := by
  have hl := length_of_charAt_zero s 'R' h (by decide)
  by_cases hg : charAt s 1 = '\n' <;> simp [command, hl, h, hg, commandLabel]

/-- The handler on a command whose key is `L`. -/
theorem command_key_L (m : FOCMotor) (s : String) (h : charAt s 0 = 'L') :
    command m s =
      ⟨1,
        if charAt s 1 = '\n' then m
        else
          { m with
            voltage_limit := toFloat (substring s 1)
            PID_velocity := { m.PID_velocity with limit := toFloat (substring s 1) } },
        emit m (emit m (emit m [] (PrintCall.print " Limits| ")) (PrintCall.print "volt_limit: "))
          (PrintCall.printlnFloat
            (if charAt s 1 = '\n' then m.voltage_limit else toFloat (substring s 1)))⟩ := by
  have hl := length_of_charAt_zero s 'L' h (by decide)
  by_cases hg : charAt s 1 = '\n' <;> simp [command, hl, h, hg, commandLabel]

/-- The handler on a command whose key is `F`. -/
theorem command_key_F (m : FOCMotor) (s : String) (h : charAt s 0 = 'F') :
    command m s =
      ⟨1,
        if charAt s 1 = '\n' then m
        else
          { m with LPF_velocity := { m.LPF_velocity with Tf := toFloat (substring s 1) } },
        emit m (emit m (emit m [] (PrintCall.print " LPF velocity| ")) (PrintCall.print "Tf: "))
          (PrintCall.printlnFloat
            (if charAt s 1 = '\n' then m.LPF_velocity.Tf else toFloat (substring s 1)))⟩ := by
  have hl := length_of_charAt_zero s 'F' h (by decide)
  by_cases hg : charAt s 1 = '\n' <;> simp [command, hl, h, hg, commandLabel]

/-- The handler on a command whose key is `K`. -/
theorem command_key_K (m : FOCMotor) (s : String) (h : charAt s 0 = 'K') :
    command m s =
      ⟨1,
        if charAt s 1 = '\n' then m
        else
          { m with P_angle := { m.P_angle with P := toFloat (substring s 1) } },
        emit m (emit m (emit m [] (PrintCall.print " PID angle| ")) (PrintCall.print " P: "))
          (PrintCall.printlnFloat
            (if charAt s 1 = '\n' then m.P_angle.P else toFloat (substring s 1)))⟩ := by
  have hl := length_of_charAt_zero s 'K' h (by decide)
  by_cases hg : charAt s 1 = '\n' <;> simp [command, hl, h, hg, commandLabel]

/-- The handler on a command whose key is `N`. -/
theorem command_key_N (m : FOCMotor) (s : String) (h : charAt s 0 = 'N') :
    command m s =
      ⟨1,
        if charAt s 1 = '\n' then m
        else
          { m with
            velocity_limit := toFloat (substring s 1)
            P_angle := { m.P_angle with limit := toFloat (substring s 1) } },
        emit m (emit m (emit m [] (PrintCall.print " Limits| ")) (PrintCall.print "vel_limit: "))
          (PrintCall.printlnFloat
            (if charAt s 1 = '\n' then m.velocity_limit else toFloat (substring s 1)))⟩ := by
  have hl := length_of_charAt_zero s 'N' h (by decide)
  by_cases hg : charAt s 1 = '\n' <;> simp [command, hl, h, hg, commandLabel]

/-- The handler on a command whose key is `C`. -/
theorem command_key_C (m : FOCMotor) (s : String) (h : charAt s 0 = 'C') :
    command m s = commandC m (charAt s 1 == '\n') (toFloat (substring s 1)) [] := by
  have hl := length_of_charAt_zero s 'C' h (by decide)
  simp [command, hl, h, commandLabel]

/-- The handler on a command whose key is `T`. -/
theorem command_key_T (m : FOCMotor) (s : String) (h : charAt s 0 = 'T') :
    command m s = commandT m (charAt s 1 == '\n') (toFloat (substring s 1)) [] := by
  have hl := length_of_charAt_zero s 'T' h (by decide)
  simp [command, hl, h, commandLabel]

/-- The handler on a command whose key is `V`. -/
theorem command_key_V (m : FOCMotor) (s : String) (h : charAt s 0 = 'V') :
    command m s = commandV m (toFloat (substring s 1)) [] := by
  have hl := length_of_charAt_zero s 'V' h (by decide)
  simp [command, hl, h, commandLabel]

/-- The handler on a non-empty command whose first character is no key. -/
theorem command_key_default (m : FOCMotor) (s : String) (hl : 1 ≤ length s)
    (h : charAt s 0 ∉ ['P', 'I', 'D', 'R', 'F', 'L', 'K', 'N', 'C', 'T', 'V']) :
    command m s =
      ⟨1, { m with target := toFloat s },
        emit m (emit m [] (PrintCall.print "Target : ")) (PrintCall.printlnFloat (toFloat s))⟩ := by
  have hl2 : ¬ length s < 1 := by omega
  simp only [List.mem_cons, List.mem_singleton, List.not_mem_nil, not_or, or_false] at h
  obtain ⟨hP, hI, hD, hR, hF, hL, hK, hN, hC, hT, hV⟩ := h
  simp [command, hl2, hP, hI, hD, hR, hF, hL, hK, hN, hC, hT, hV, commandLabel]

/-- A non-empty command whose key is none of `C`, `T`, `V` returns `1`. -/
theorem command_ret_of_not_CTV (m : FOCMotor) (s : String) (hl : 1 ≤ length s)
    (hC : charAt s 0 ≠ 'C') (hT : charAt s 0 ≠ 'T') (hV : charAt s 0 ≠ 'V') :
    (command m s).ret = 1 := by
  by_cases hP : charAt s 0 = 'P'
  · rw [command_key_P m s hP]
  by_cases hI : charAt s 0 = 'I'
  · rw [command_key_I m s hI]
  by_cases hD : charAt s 0 = 'D'
  · rw [command_key_D m s hD]
  by_cases hR : charAt s 0 = 'R'
  · rw [command_key_R m s hR]
  by_cases hF : charAt s 0 = 'F'
  · rw [command_key_F m s hF]
  by_cases hL : charAt s 0 = 'L'
  · rw [command_key_L m s hL]
  by_cases hK : charAt s 0 = 'K'
  · rw [command_key_K m s hK]
  by_cases hN : charAt s 0 = 'N'
  · rw [command_key_N m s hN]
  rw [command_key_default m s hl (by simp [hP, hI, hD, hR, hF, hL, hK, hN, hC, hT, hV])]

/-! ## Command handler: theorems -/

/-- C4 (counterexample): on the empty command string the handler does not return the
failure value `0`; it returns `1`, the value it returns for the successful command
`C4`, while the failing command `C5` returns `0`. -/
theorem command_empty_returns_success_value :
    (command motor0 "").ret ≠ 0 ∧ (command motor0 "").ret = 1 ∧
    (command motor0 "C4\n").ret = 1 ∧ (command motor0 "C5\n").ret = 0 := by
  refine ⟨by decide, by decide, ?_, ?_⟩ <;>
  simp [command, length, charAt, commandC, toInt, toFloat, substring, atof, readSign,
    skipSpace, readDigits, isSpace, readExponent]

/-- C4 (amended): on the empty command string the handler returns `1`, the value it returns
for a successful command, leaves the motor state unchanged and prints nothing. -/
theorem command_empty (m : FOCMotor) : command m "" = ⟨1, m, []⟩ := by
  simp [command, length]

/-- C5: for every non-empty command string the handler returns `0` exactly when the key
is `C` in set form and the integer cast of the parsed value is outside `0..4`, or the key
is `T` in set form and that integer is outside `0..2`, or the key is `V` and that integer
is outside `0..3`; every other non-empty command returns `1`. -/
theorem command_failure_iff (m : FOCMotor) (user_command : String)
    (h : 1 ≤ length user_command) :
    ((command m user_command).ret = 0 ↔
      (charAt user_command 0 = 'C' ∧ charAt user_command 1 ≠ '\n' ∧
        ¬ (0 ≤ toInt (toFloat (substring user_command 1)) ∧
           toInt (toFloat (substring user_command 1)) ≤ 4)) ∨
      (charAt user_command 0 = 'T' ∧ charAt user_command 1 ≠ '\n' ∧
        ¬ (0 ≤ toInt (toFloat (substring user_command 1)) ∧
           toInt (toFloat (substring user_command 1)) ≤ 2)) ∨
      (charAt user_command 0 = 'V' ∧
        ¬ (0 ≤ toInt (toFloat (substring user_command 1)) ∧
           toInt (toFloat (substring user_command 1)) ≤ 3))) ∧
    ((command m user_command).ret ≠ 0 → (command m user_command).ret = 1) := by
  by_cases hC : charAt user_command 0 = 'C'
  · have hr := commandC_ret m (charAt user_command 1 == '\n')
      (toFloat (substring user_command 1)) []
    rw [command_key_C m user_command hC]
    refine ⟨?_, fun hne => hr.2.resolve_left hne⟩
    rw [hr.1]
    simp [hC]
  by_cases hT : charAt user_command 0 = 'T'
  · have hr := commandT_ret m (charAt user_command 1 == '\n')
      (toFloat (substring user_command 1)) []
    rw [command_key_T m user_command hT]
    refine ⟨?_, fun hne => hr.2.resolve_left hne⟩
    rw [hr.1]
    simp [hT]
  by_cases hV : charAt user_command 0 = 'V'
  · have hr := commandV_ret m (toFloat (substring user_command 1)) []
    rw [command_key_V m user_command hV]
    refine ⟨?_, fun hne => hr.2.resolve_left hne⟩
    rw [hr.1]
    simp [hV]
  have hr := command_ret_of_not_CTV m user_command h hC hT hV
  rw [hr]
  simp [hC, hT, hV]

/-- Witness of C5: `V9` fails, while `V3`, the get form of `C` and an unrecognized key succeed. -/
theorem command_failure_iff_witness :
    1 ≤ length "V9" ∧ (command motor0 "V9").ret = 0 ∧ (command motor0 "V3").ret = 1 ∧
    (command motor0 "C\n").ret = 1 ∧ (command motor0 "x").ret = 1 := by
  refine ⟨by decide, ?_, ?_, ?_, ?_⟩
  · refine (command_failure_iff motor0 "V9" (by decide)).1.2 (Or.inr (Or.inr ⟨by decide, ?_⟩))
    simp [toInt, toFloat, substring, atof, readSign, skipSpace, readDigits, isSpace,
      readExponent]
  · refine (command_failure_iff motor0 "V3" (by decide)).2 ?_
    rw [Ne, (command_failure_iff motor0 "V3" (by decide)).1]
    simp [charAt, toInt, toFloat, substring, atof, readSign, skipSpace, readDigits, isSpace,
      readExponent]
  · refine (command_failure_iff motor0 "C\n" (by decide)).2 ?_
    rw [Ne, (command_failure_iff motor0 "C\n" (by decide)).1]
    simp [charAt]
  · refine (command_failure_iff motor0 "x" (by decide)).2 ?_
    rw [Ne, (command_failure_iff motor0 "x" (by decide)).1]
    simp [charAt]

/-- C6: whenever the handler returns `0`, the motor state after the call is the motor
state before it (so a `C` or `T` set with an out-of-range integer leaves `controller` and
`torque_controller` unchanged, and a `V` with an out-of-range selector changes nothing). -/
theorem command_failure_state_unchanged (m : FOCMotor) (user_command : String)
    (h : (command m user_command).ret = 0) : (command m user_command).motor = m := by
  by_cases hl : length user_command < 1
  · simp [command, hl]
  have hl1 : 1 ≤ length user_command := by omega
  by_cases hC : charAt user_command 0 = 'C'
  · rw [command_key_C m user_command hC] at h ⊢
    exact commandC_motor_of_fail m _ _ _ h
  by_cases hT : charAt user_command 0 = 'T'
  · rw [command_key_T m user_command hT] at h ⊢
    exact commandT_motor_of_fail m _ _ _ h
  by_cases hV : charAt user_command 0 = 'V'
  · rw [command_key_V m user_command hV]
    exact commandV_motor m _ _
  rw [command_ret_of_not_CTV m user_command hl1 hC hT hV] at h
  exact absurd h (by decide)

/-- Witness of C6: `C5` fails on `motor0` and leaves it, and its `controller`, unchanged. -/
theorem command_failure_state_unchanged_witness :
    (command motor0 "C5\n").ret = 0 ∧ (command motor0 "C5\n").motor = motor0 ∧
    (command motor0 "C5\n").motor.controller = MotionControlType.velocity := by
  have h : (command motor0 "C5\n").ret = 0 := by
    simp [command, length, charAt, commandC, toInt, toFloat, substring, atof, readSign,
      skipSpace, readDigits, isSpace, readExponent]
  refine ⟨h, command_failure_state_unchanged motor0 "C5\n" h, ?_⟩
  rw [command_failure_state_unchanged motor0 "C5\n" h]
  rfl

/-- C7: for every `n` in `0..4` with `c` the `n`-th mode of (torque, velocity, angle,
velocity_openloop, angle_openloop), a `C` command in set form whose value casts to `n`
returns `1` and sets `controller` to `c` (nothing else changes); a following get command
`C\n` returns `1` and leaves the motor state unchanged; and with a monitoring port attached
both the set and the get print the label followed by the name of `c`. -/
theorem command_C_set_then_get (m : FOCMotor) (user_command : String) (n : ℕ)
    (c : MotionControlType) (hkey : charAt user_command 0 = 'C')
    (hset : charAt user_command 1 ≠ '\n')
    (hval : toInt (toFloat (substring user_command 1)) = (n : ℤ))
    (hc : controllerTable[n]? = some c) :
    (command m user_command).ret = 1 ∧
    (command m user_command).motor = { m with controller := c } ∧
    (command (command m user_command).motor "C\n").ret = 1 ∧
    (command (command m user_command).motor "C\n").motor = (command m user_command).motor ∧
    (m.monitor_port.isSome = true →
      (command m user_command).out =
        [PrintCall.print "Control: ", PrintCall.println (controllerName c)] ∧
      (command (command m user_command).motor "C\n").out =
        [PrintCall.print "Control: ", PrintCall.println (controllerName c)]) := by
  have hg : (charAt user_command 1 == '\n') = false := by simpa using hset
  have hs : command m user_command =
      ⟨1, { m with controller := c }, emit m (emit m [] (PrintCall.print "Control: "))
        (PrintCall.println (controllerName c))⟩ := by
    rw [command_key_C m user_command hkey, hg]
    exact commandC_set m _ [] n c hval hc
  have hq : ∀ m1 : FOCMotor, command m1 "C\n" =
      ⟨1, m1, emit m1 (emit m1 [] (PrintCall.print "Control: "))
        (PrintCall.println (controllerName m1.controller))⟩ := by
    intro m1
    rw [command_key_C m1 "C\n" (by decide)]
    have : (charAt "C\n" 1 == '\n') = true := by decide
    rw [this]
    exact commandC_get m1 _ []
  rw [hs]
  refine ⟨rfl, rfl, ?_, ?_, ?_⟩
  · rw [hq]
  · rw [hq]
  · intro hp
    rw [hq]
    refine ⟨?_, ?_⟩
    · simp [emit, hp]
    · simp [emit, hp]

/-- Witness of C7: `C4` followed by the get form of `C` reports `angle openloop`. -/
theorem command_C_set_then_get_witness :
    (command motor1 "C4\n").ret = 1 ∧
    (command motor1 "C4\n").motor.controller = MotionControlType.angle_openloop ∧
    (command (command motor1 "C4\n").motor "C\n").ret = 1 ∧
    (command (command motor1 "C4\n").motor "C\n").out =
      [PrintCall.print "Control: ", PrintCall.println "angle openloop"] := by
  have hval : toInt (toFloat (substring "C4\n" 1)) = ((4 : ℕ) : ℤ) := by
    simp [toInt, toFloat, substring, atof, readSign, skipSpace, readDigits, isSpace,
      readExponent]
  have h := command_C_set_then_get motor1 "C4\n" 4 MotionControlType.angle_openloop
    (by decide) (by decide) hval (by decide)
  refine ⟨h.1, ?_, h.2.2.1, (h.2.2.2.2 (by decide)).2⟩
  rw [h.2.1]

/-- C8: for every `n` in `0..2` with `c` the `n`-th mode of (voltage, current,
foc_current), a `T` command in set form whose value casts to `n` returns `1` and sets
`torque_controller` to `c` (nothing else changes); a following get command `T\n` returns
`1` and leaves the motor state unchanged, and with a monitoring port attached it prints
the label followed by the name of `c`. -/
theorem command_T_set_then_get (m : FOCMotor) (user_command : String) (n : ℕ)
    (c : TorqueControlType) (hkey : charAt user_command 0 = 'T')
    (hset : charAt user_command 1 ≠ '\n')
    (hval : toInt (toFloat (substring user_command 1)) = (n : ℤ))
    (hc : torqueControllerTable[n]? = some c) :
    (command m user_command).ret = 1 ∧
    (command m user_command).motor = { m with torque_controller := c } ∧
    (command (command m user_command).motor "T\n").ret = 1 ∧
    (command (command m user_command).motor "T\n").motor = (command m user_command).motor ∧
    (m.monitor_port.isSome = true →
      (command (command m user_command).motor "T\n").out =
        [PrintCall.print "Torque: ", PrintCall.println (torqueControllerName c)]) := by
  have hg : (charAt user_command 1 == '\n') = false := by simpa using hset
  have hs : command m user_command =
      ⟨1, { m with torque_controller := c }, emit m (emit m [] (PrintCall.print "Torque: "))
        (PrintCall.println (torqueControllerName c))⟩ := by
    rw [command_key_T m user_command hkey, hg]
    exact commandT_set m _ [] n c hval hc
  have hq : ∀ m1 : FOCMotor, command m1 "T\n" =
      ⟨1, m1, emit m1 (emit m1 [] (PrintCall.print "Torque: "))
        (PrintCall.println (torqueControllerName m1.torque_controller))⟩ := by
    intro m1
    rw [command_key_T m1 "T\n" (by decide)]
    have : (charAt "T\n" 1 == '\n') = true := by decide
    rw [this]
    exact commandT_get m1 _ []
  rw [hs]
  refine ⟨rfl, rfl, ?_, ?_, ?_⟩
  · rw [hq]
  · rw [hq]
  · intro hp
    rw [hq]
    simp [emit, hp]

/-- Witness of C8: `T1` followed by the get form of `T` reports `current`. -/
theorem command_T_set_then_get_witness :
    (command motor1 "T1").ret = 1 ∧
    (command motor1 "T1").motor.torque_controller = TorqueControlType.current ∧
    (command (command motor1 "T1").motor "T\n").ret = 1 ∧
    (command (command motor1 "T1").motor "T\n").out =
      [PrintCall.print "Torque: ", PrintCall.println "current"] := by
  have hval : toInt (toFloat (substring "T1" 1)) = ((1 : ℕ) : ℤ) := by
    simp [toInt, toFloat, substring, atof, readSign, skipSpace, readDigits, isSpace,
      readExponent]
  have h := command_T_set_then_get motor1 "T1" 1 TorqueControlType.current
    (by decide) (by decide) hval (by decide)
  refine ⟨h.1, ?_, h.2.2.1, h.2.2.2.2 (by decide)⟩
  rw [h.2.1]

/-- C9: for every non-empty command string whose first character is none of the keys
`P I D R F L K N C T V`, the handler sets `target` to the float parsed from the whole
command string, leaves every other field of the motor state unchanged and returns `1`,
whatever the second character is. -/
theorem command_default_sets_target (m : FOCMotor) (user_command : String)
    (hl : 1 ≤ length user_command)
    (h : charAt user_command 0 ∉ ['P', 'I', 'D', 'R', 'F', 'L', 'K', 'N', 'C', 'T', 'V']) :
    (command m user_command).ret = 1 ∧
    (command m user_command).motor = { m with target := toFloat user_command } := by
  rw [command_key_default m user_command hl h]
  exact ⟨rfl, rfl⟩

/-- Witness of C9: the bare numeric lines `3.5` and `3`, each followed by a line terminator. -/
theorem command_default_sets_target_witness :
    (command motor0 "3.5\n").ret = 1 ∧
    (command motor0 "3.5\n").motor = { motor0 with target := 7 / 2 } ∧
    (command motor0 "3\n").ret = 1 ∧
    (command motor0 "3\n").motor = { motor0 with target := 3 } := by
  have h1 := command_default_sets_target motor0 "3.5\n" (by decide) (by decide)
  have h2 := command_default_sets_target motor0 "3\n" (by decide) (by decide)
  have e1 : toFloat "3.5\n" = 7 / 2 := by
    simp [toFloat, atof, readSign, skipSpace, readDigits, isSpace, readExponent]
    norm_num
  have e2 : toFloat "3\n" = 3 := by
    simp [toFloat, atof, readSign, skipSpace, readDigits, isSpace, readExponent]
  rw [e1] at h1
  rw [e2] at h2
  exact ⟨h1.1, h1.2, h2.1, h2.2⟩

/-- C10: for every value `v` parsed from the command, the set form of `L` writes `v` to
both `voltage_limit` and `PID_velocity.limit`, the set form of `N` writes `v` to both
`velocity_limit` and `P_angle.limit`; each returns `1` and changes no other field. -/
theorem command_limits_set (m : FOCMotor) (user_command : String)
    (hset : charAt user_command 1 ≠ '\n') :
    (charAt user_command 0 = 'L' →
      (command m user_command).ret = 1 ∧
      (command m user_command).motor =
        { m with
          voltage_limit := toFloat (substring user_command 1)
          PID_velocity :=
            { m.PID_velocity with limit := toFloat (substring user_command 1) } }) ∧
    (charAt user_command 0 = 'N' →
      (command m user_command).ret = 1 ∧
      (command m user_command).motor =
        { m with
          velocity_limit := toFloat (substring user_command 1)
          P_angle := { m.P_angle with limit := toFloat (substring user_command 1) } }) := by
  constructor
  · intro hkey
    rw [command_key_L m user_command hkey]
    simp [hset]
  · intro hkey
    rw [command_key_N m user_command hkey]
    simp [hset]

/-- Witness of C10: `L10` and `N5` on `motor0`. -/
theorem command_limits_set_witness :
    ((command motor0 "L10").ret = 1 ∧ (command motor0 "L10").motor.voltage_limit = 10 ∧
      (command motor0 "L10").motor.PID_velocity.limit = 10) ∧
    ((command motor0 "N5").ret = 1 ∧ (command motor0 "N5").motor.velocity_limit = 5 ∧
      (command motor0 "N5").motor.P_angle.limit = 5) := by
  have hL := (command_limits_set motor0 "L10" (by decide)).1 (by decide)
  have hN := (command_limits_set motor0 "N5" (by decide)).2 (by decide)
  have eL : toFloat (substring "L10" 1) = 10 := by
    simp [toFloat, substring, atof, readSign, skipSpace, readDigits, isSpace, readExponent]
  have eN : toFloat (substring "N5" 1) = 5 := by
    simp [toFloat, substring, atof, readSign, skipSpace, readDigits, isSpace, readExponent]
  rw [eL] at hL
  rw [eN] at hN
  refine ⟨⟨hL.1, ?_, ?_⟩, ⟨hN.1, ?_, ?_⟩⟩
  · rw [hL.2]
  · rw [hL.2]
  · rw [hN.2]
  · rw [hN.2]

/-! ## Further helper lemmas on the command handler -/

/-- Without a port the guarded call does nothing. -/
theorem emit_of_none (m : FOCMotor) (out : List PrintCall) (c : PrintCall)
    (h : m.monitor_port = none) : emit m out c = out := by
  simp [emit, h]

/-- Every command string is empty, starts with one of the eleven keys, or is non-empty and
starts with another character. -/
theorem key_cases (s : String) :
    length s < 1 ∨
    (charAt s 0 = 'P' ∨ charAt s 0 = 'I' ∨ charAt s 0 = 'D' ∨ charAt s 0 = 'R' ∨
      charAt s 0 = 'F' ∨ charAt s 0 = 'L' ∨ charAt s 0 = 'K' ∨ charAt s 0 = 'N' ∨
      charAt s 0 = 'C' ∨ charAt s 0 = 'T' ∨ charAt s 0 = 'V') ∨
    (1 ≤ length s ∧
      charAt s 0 ∉ ['P', 'I', 'D', 'R', 'F', 'L', 'K', 'N', 'C', 'T', 'V']) := by
  by_cases hl : length s < 1
  · exact Or.inl hl
  by_cases hk : charAt s 0 ∈ ['P', 'I', 'D', 'R', 'F', 'L', 'K', 'N', 'C', 'T', 'V']
  · refine Or.inr (Or.inl ?_)
    simpa using hk
  · exact Or.inr (Or.inr ⟨by omega, hk⟩)

/-- Branch `case 'C'` never writes `torque_controller`. -/
theorem commandC_torque_controller (m : FOCMotor) (GET : Bool) (value : ℚ)
    (out : List PrintCall) :
    (commandC m GET value out).motor.torque_controller = m.torque_controller := by
  cases GET
  · unfold commandC
    simp only [Bool.false_eq_true, if_false]
    split_ifs <;> rfl
  · rw [commandC_get]

/-- Branch `case 'T'` never writes `controller`. -/
theorem commandT_controller (m : FOCMotor) (GET : Bool) (value : ℚ)
    (out : List PrintCall) :
    (commandT m GET value out).motor.controller = m.controller := by
  cases GET
  · unfold commandT
    simp only [Bool.false_eq_true, if_false]
    split_ifs <;> rfl
  · rw [commandT_get]

/-- Branch `case 'C'` returns and writes the same whatever port is attached. -/
theorem commandC_port (m : FOCMotor) (GET : Bool) (value : ℚ) (out1 out2 : List PrintCall)
    (p : Option Print) :
    (commandC { m with monitor_port := p } GET value out1).ret =
      (commandC m GET value out2).ret ∧
    (commandC { m with monitor_port := p } GET value out1).motor =
      { (commandC m GET value out2).motor with monitor_port := p } := by
  cases GET
  · unfold commandC
    simp only [Bool.false_eq_true, if_false]
    split_ifs <;> exact ⟨rfl, rfl⟩
  · rw [commandC_get, commandC_get]
    exact ⟨rfl, rfl⟩

/-- Branch `case 'T'` returns and writes the same whatever port is attached. -/
theorem commandT_port (m : FOCMotor) (GET : Bool) (value : ℚ) (out1 out2 : List PrintCall)
    (p : Option Print) :
    (commandT { m with monitor_port := p } GET value out1).ret =
      (commandT m GET value out2).ret ∧
    (commandT { m with monitor_port := p } GET value out1).motor =
      { (commandT m GET value out2).motor with monitor_port := p } := by
  cases GET
  · unfold commandT
    simp only [Bool.false_eq_true, if_false]
    split_ifs <;> exact ⟨rfl, rfl⟩
  · rw [commandT_get, commandT_get]
    exact ⟨rfl, rfl⟩

/-- Branch `case 'V'` returns and writes the same whatever port is attached. -/
theorem commandV_port (m : FOCMotor) (value : ℚ) (out1 out2 : List PrintCall)
    (p : Option Print) :
    (commandV { m with monitor_port := p } value out1).ret = (commandV m value out2).ret ∧
    (commandV { m with monitor_port := p } value out1).motor =
      { (commandV m value out2).motor with monitor_port := p } := by
  unfold commandV
  dsimp only
  split_ifs <;> exact ⟨rfl, rfl⟩

/-- Without a port `case 'C'` adds nothing to what was printed. -/
theorem commandC_out_of_none (m : FOCMotor) (GET : Bool) (value : ℚ) (out : List PrintCall)
    (h : m.monitor_port = none) : (commandC m GET value out).out = out := by
  cases GET
  · unfold commandC
    simp only [Bool.false_eq_true, if_false]
    split_ifs <;> simp [emit, h]
  · rw [commandC_get]
    simp [emit, h]

/-- Without a port `case 'T'` adds nothing to what was printed. -/
theorem commandT_out_of_none (m : FOCMotor) (GET : Bool) (value : ℚ) (out : List PrintCall)
    (h : m.monitor_port = none) : (commandT m GET value out).out = out := by
  cases GET
  · unfold commandT
    simp only [Bool.false_eq_true, if_false]
    split_ifs <;> simp [emit, h]
  · rw [commandT_get]
    simp [emit, h]

/-- Without a port `case 'V'` adds nothing to what was printed. -/
theorem commandV_out_of_none (m : FOCMotor) (value : ℚ) (out : List PrintCall)
    (h : m.monitor_port = none) : (commandV m value out).out = out := by
  unfold commandV
  dsimp only
  split_ifs <;> simp [emit, h]

/-- The handler leaves `controller` alone unless the command is a `C` in set form. -/
theorem command_controller_unchanged (m : FOCMotor) (s : String)
    (h : charAt s 0 ≠ 'C' ∨ charAt s 1 = '\n') :
    (command m s).motor.controller = m.controller := by
  rcases key_cases s with hl | hk | ⟨hl, hk⟩
  · simp [command, hl]
  · rcases hk with k | k | k | k | k | k | k | k | k | k | k
    · rw [command_key_P m s k]; by_cases hg : charAt s 1 = '\n' <;> simp [hg]
    · rw [command_key_I m s k]; by_cases hg : charAt s 1 = '\n' <;> simp [hg]
    · rw [command_key_D m s k]; by_cases hg : charAt s 1 = '\n' <;> simp [hg]
    · rw [command_key_R m s k]; by_cases hg : charAt s 1 = '\n' <;> simp [hg]
    · rw [command_key_F m s k]; by_cases hg : charAt s 1 = '\n' <;> simp [hg]
    · rw [command_key_L m s k]; by_cases hg : charAt s 1 = '\n' <;> simp [hg]
    · rw [command_key_K m s k]; by_cases hg : charAt s 1 = '\n' <;> simp [hg]
    · rw [command_key_N m s k]; by_cases hg : charAt s 1 = '\n' <;> simp [hg]
    · have hget : charAt s 1 = '\n' := h.resolve_left (fun hne => hne k)
      have hg : (charAt s 1 == '\n') = true := by simpa using hget
      rw [command_key_C m s k, hg, commandC_get]
    · rw [command_key_T m s k]
      exact commandT_controller m _ _ _
    · rw [command_key_V m s k, commandV_motor]
  · rw [command_key_default m s hl hk]

/-- The handler leaves `torque_controller` alone unless the command is a `T` in set
form. -/
theorem command_torque_controller_unchanged (m : FOCMotor) (s : String)
    (h : charAt s 0 ≠ 'T' ∨ charAt s 1 = '\n') :
    (command m s).motor.torque_controller = m.torque_controller := by
  rcases key_cases s with hl | hk | ⟨hl, hk⟩
  · simp [command, hl]
  · rcases hk with k | k | k | k | k | k | k | k | k | k | k
    · rw [command_key_P m s k]; by_cases hg : charAt s 1 = '\n' <;> simp [hg]
    · rw [command_key_I m s k]; by_cases hg : charAt s 1 = '\n' <;> simp [hg]
    · rw [command_key_D m s k]; by_cases hg : charAt s 1 = '\n' <;> simp [hg]
    · rw [command_key_R m s k]; by_cases hg : charAt s 1 = '\n' <;> simp [hg]
    · rw [command_key_F m s k]; by_cases hg : charAt s 1 = '\n' <;> simp [hg]
    · rw [command_key_L m s k]; by_cases hg : charAt s 1 = '\n' <;> simp [hg]
    · rw [command_key_K m s k]; by_cases hg : charAt s 1 = '\n' <;> simp [hg]
    · rw [command_key_N m s k]; by_cases hg : charAt s 1 = '\n' <;> simp [hg]
    · rw [command_key_C m s k]
      exact commandC_torque_controller m _ _ _
    · have hget : charAt s 1 = '\n' := h.resolve_left (fun hne => hne k)
      have hg : (charAt s 1 == '\n') = true := by simpa using hget
      rw [command_key_T m s k, hg, commandT_get]
    · rw [command_key_V m s k, commandV_motor]
  · rw [command_key_default m s hl hk]

/-- With a port attached, the only non-empty commands that print nothing are the `V`
commands whose integer is outside `0..3`. -/
theorem command_out_eq_nil_iff (m : FOCMotor) (s : String) (hl : 1 ≤ length s)
    (hp : m.monitor_port.isSome = true) :
    (command m s).out = [] ↔
      (charAt s 0 = 'V' ∧
        ¬ (0 ≤ toInt (toFloat (substring s 1)) ∧ toInt (toFloat (substring s 1)) ≤ 3)) := by
  rcases key_cases s with hl0 | hk | ⟨_, hk⟩
  · omega
  · rcases hk with k | k | k | k | k | k | k | k | k | k | k
    · rw [command_key_P m s k]; simp [emit, hp, k]
    · rw [command_key_I m s k]; simp [emit, hp, k]
    · rw [command_key_D m s k]; simp [emit, hp, k]
    · rw [command_key_R m s k]; simp [emit, hp, k]
    · rw [command_key_F m s k]; simp [emit, hp, k]
    · rw [command_key_L m s k]; simp [emit, hp, k]
    · rw [command_key_K m s k]; simp [emit, hp, k]
    · rw [command_key_N m s k]; simp [emit, hp, k]
    · rw [command_key_C m s k]
      unfold commandC
      cases (charAt s 1 == '\n')
      · simp only [Bool.false_eq_true, if_false]
        split_ifs <;> simp [emit, hp, k]
      · simp only [if_true]
        cases m.controller <;> simp [emit, hp, k]
    · rw [command_key_T m s k]
      unfold commandT
      cases (charAt s 1 == '\n')
      · simp only [Bool.false_eq_true, if_false]
        split_ifs <;> simp [emit, hp, k]
      · simp only [if_true]
        cases m.torque_controller <;> simp [emit, hp, k]
    · rw [command_key_V m s k]
      unfold commandV
      dsimp only
      split_ifs <;> simp [emit, hp, k] <;> omega
  · rw [command_key_default m s hl hk]
    have hV : charAt s 0 ≠ 'V' := fun h => hk (by simp [h])
    simp [emit, hp, hV]

/-! ## Command handler and monitor: further theorems -/

/-- C11: for every motor state and every value `v` parsed from the command, the set form
of the keys `P`, `I`, `D`, `R`, `F`, `K` writes `v` to `PID_velocity.P`, `PID_velocity.I`,
`PID_velocity.D`, `PID_velocity.output_ramp`, `LPF_velocity.Tf` and `P_angle.P`
respectively, leaves every other field unchanged and returns `1`; with a monitoring port
attached it prints the labels and then `v`. -/
theorem command_gain_set (m : FOCMotor) (user_command : String)
    (hset : charAt user_command 1 ≠ '\n') :
    (charAt user_command 0 = 'P' →
      (command m user_command).ret = 1 ∧
      (command m user_command).motor =
        { m with PID_velocity := { m.PID_velocity with P := toFloat (substring user_command 1) } } ∧
      (m.monitor_port.isSome = true →
        (command m user_command).out =
          [PrintCall.print " PID velocity| ", PrintCall.print "P: ",
           PrintCall.printlnFloat (toFloat (substring user_command 1))])) ∧
    (charAt user_command 0 = 'I' →
      (command m user_command).ret = 1 ∧
      (command m user_command).motor =
        { m with PID_velocity := { m.PID_velocity with I := toFloat (substring user_command 1) } } ∧
      (m.monitor_port.isSome = true →
        (command m user_command).out =
          [PrintCall.print " PID velocity| ", PrintCall.print "I: ",
           PrintCall.printlnFloat (toFloat (substring user_command 1))])) ∧
    (charAt user_command 0 = 'D' →
      (command m user_command).ret = 1 ∧
      (command m user_command).motor =
        { m with PID_velocity := { m.PID_velocity with D := toFloat (substring user_command 1) } } ∧
      (m.monitor_port.isSome = true →
        (command m user_command).out =
          [PrintCall.print " PID velocity| ", PrintCall.print "D: ",
           PrintCall.printlnFloat (toFloat (substring user_command 1))])) ∧
    (charAt user_command 0 = 'R' →
      (command m user_command).ret = 1 ∧
      (command m user_command).motor =
        { m with PID_velocity := { m.PID_velocity with output_ramp := toFloat (substring user_command 1) } } ∧
      (m.monitor_port.isSome = true →
        (command m user_command).out =
          [PrintCall.print " PID velocity| ", PrintCall.print "volt_ramp: ",
           PrintCall.printlnFloat (toFloat (substring user_command 1))])) ∧
    (charAt user_command 0 = 'F' →
      (command m user_command).ret = 1 ∧
      (command m user_command).motor =
        { m with LPF_velocity := { m.LPF_velocity with Tf := toFloat (substring user_command 1) } } ∧
      (m.monitor_port.isSome = true →
        (command m user_command).out =
          [PrintCall.print " LPF velocity| ", PrintCall.print "Tf: ",
           PrintCall.printlnFloat (toFloat (substring user_command 1))])) ∧
    (charAt user_command 0 = 'K' →
      (command m user_command).ret = 1 ∧
      (command m user_command).motor =
        { m with P_angle := { m.P_angle with P := toFloat (substring user_command 1) } } ∧
      (m.monitor_port.isSome = true →
        (command m user_command).out =
          [PrintCall.print " PID angle| ", PrintCall.print " P: ",
           PrintCall.printlnFloat (toFloat (substring user_command 1))])) := by
  refine ⟨?_, ?_, ?_, ?_, ?_, ?_⟩
  · intro hkey
    rw [command_key_P m user_command hkey]
    refine ⟨rfl, by simp [hset], fun hp => ?_⟩
    simp [hset, emit, hp]
  · intro hkey
    rw [command_key_I m user_command hkey]
    refine ⟨rfl, by simp [hset], fun hp => ?_⟩
    simp [hset, emit, hp]
  · intro hkey
    rw [command_key_D m user_command hkey]
    refine ⟨rfl, by simp [hset], fun hp => ?_⟩
    simp [hset, emit, hp]
  · intro hkey
    rw [command_key_R m user_command hkey]
    refine ⟨rfl, by simp [hset], fun hp => ?_⟩
    simp [hset, emit, hp]
  · intro hkey
    rw [command_key_F m user_command hkey]
    refine ⟨rfl, by simp [hset], fun hp => ?_⟩
    simp [hset, emit, hp]
  · intro hkey
    rw [command_key_K m user_command hkey]
    refine ⟨rfl, by simp [hset], fun hp => ?_⟩
    simp [hset, emit, hp]

/-- C12: for every key in `P I D R F L K N C T`, the command made of the key immediately
followed by the line terminator returns `1` and leaves the whole motor state unchanged;
with a monitoring port attached it prints the labels and then the current value of the
field the key names (for `C` and `T` the name of the current mode). -/
theorem command_get_form (m : FOCMotor) (user_command : String)
    (hget : charAt user_command 1 = '\n') :
    (charAt user_command 0 ∈ ['P', 'I', 'D', 'R', 'F', 'L', 'K', 'N', 'C', 'T'] →
      (command m user_command).ret = 1 ∧ (command m user_command).motor = m) ∧
    (m.monitor_port.isSome = true →
      (charAt user_command 0 = 'P' →
        (command m user_command).out =
          [PrintCall.print " PID velocity| ", PrintCall.print "P: ",
           PrintCall.printlnFloat m.PID_velocity.P]) ∧
      (charAt user_command 0 = 'I' →
        (command m user_command).out =
          [PrintCall.print " PID velocity| ", PrintCall.print "I: ",
           PrintCall.printlnFloat m.PID_velocity.I]) ∧
      (charAt user_command 0 = 'D' →
        (command m user_command).out =
          [PrintCall.print " PID velocity| ", PrintCall.print "D: ",
           PrintCall.printlnFloat m.PID_velocity.D]) ∧
      (charAt user_command 0 = 'R' →
        (command m user_command).out =
          [PrintCall.print " PID velocity| ", PrintCall.print "volt_ramp: ",
           PrintCall.printlnFloat m.PID_velocity.output_ramp]) ∧
      (charAt user_command 0 = 'F' →
        (command m user_command).out =
          [PrintCall.print " LPF velocity| ", PrintCall.print "Tf: ",
           PrintCall.printlnFloat m.LPF_velocity.Tf]) ∧
      (charAt user_command 0 = 'K' →
        (command m user_command).out =
          [PrintCall.print " PID angle| ", PrintCall.print " P: ",
           PrintCall.printlnFloat m.P_angle.P]) ∧
      (charAt user_command 0 = 'L' →
        (command m user_command).out =
          [PrintCall.print " Limits| ", PrintCall.print "volt_limit: ",
           PrintCall.printlnFloat m.voltage_limit]) ∧
      (charAt user_command 0 = 'N' →
        (command m user_command).out =
          [PrintCall.print " Limits| ", PrintCall.print "vel_limit: ",
           PrintCall.printlnFloat m.velocity_limit]) ∧
      (charAt user_command 0 = 'C' →
        (command m user_command).out =
          [PrintCall.print "Control: ", PrintCall.println (controllerName m.controller)]) ∧
      (charAt user_command 0 = 'T' →
        (command m user_command).out =
          [PrintCall.print "Torque: ",
           PrintCall.println (torqueControllerName m.torque_controller)])) := by
  have hg : (charAt user_command 1 == '\n') = true := by simpa using hget
  constructor
  · intro hkey
    simp only [List.mem_cons, List.mem_singleton, List.not_mem_nil, or_false] at hkey
    rcases hkey with h | h | h | h | h | h | h | h | h | h
    · rw [command_key_P m user_command h]; simp [hget]
    · rw [command_key_I m user_command h]; simp [hget]
    · rw [command_key_D m user_command h]; simp [hget]
    · rw [command_key_R m user_command h]; simp [hget]
    · rw [command_key_F m user_command h]; simp [hget]
    · rw [command_key_L m user_command h]; simp [hget]
    · rw [command_key_K m user_command h]; simp [hget]
    · rw [command_key_N m user_command h]; simp [hget]
    · rw [command_key_C m user_command h, hg, commandC_get]; exact ⟨rfl, rfl⟩
    · rw [command_key_T m user_command h, hg, commandT_get]; exact ⟨rfl, rfl⟩
  · intro hp
    refine ⟨?_, ?_, ?_, ?_, ?_, ?_, ?_, ?_, ?_, ?_⟩
    · intro h
      rw [command_key_P m user_command h]
      simp [hget, emit, hp]
    · intro h
      rw [command_key_I m user_command h]
      simp [hget, emit, hp]
    · intro h
      rw [command_key_D m user_command h]
      simp [hget, emit, hp]
    · intro h
      rw [command_key_R m user_command h]
      simp [hget, emit, hp]
    · intro h
      rw [command_key_F m user_command h]
      simp [hget, emit, hp]
    · intro h
      rw [command_key_K m user_command h]
      simp [hget, emit, hp]
    · intro h
      rw [command_key_L m user_command h]
      simp [hget, emit, hp]
    · intro h
      rw [command_key_N m user_command h]
      simp [hget, emit, hp]
    · intro h
      rw [command_key_C m user_command h, hg, commandC_get]
      simp [emit, hp]
    · intro h
      rw [command_key_T m user_command h, hg, commandT_get]
      simp [emit, hp]

/-- Witness of C11: `P0.75` on `motor1` sets the velocity P gain to `3/4` and echoes it. -/
theorem command_gain_set_witness :
    charAt "P0.75" 1 ≠ '\n' ∧ (command motor1 "P0.75").ret = 1 ∧
    (command motor1 "P0.75").motor.PID_velocity.P = 3 / 4 ∧
    (command motor1 "P0.75").out =
      [PrintCall.print " PID velocity| ", PrintCall.print "P: ",
       PrintCall.printlnFloat (3 / 4)] := by
  have h := (command_gain_set motor1 "P0.75" (by decide)).1 (by decide)
  have e : toFloat (substring "P0.75" 1) = 3 / 4 := by
    simp [toFloat, substring, atof, readSign, skipSpace, readDigits, isSpace, readExponent]
    norm_num
  rw [e] at h
  refine ⟨by decide, h.1, ?_, h.2.2 (by decide)⟩
  rw [h.2.1]

/-- Witness of C12: the get form of `P` on `motor1` echoes the stored gain `1/2`, and the
get form of `C` echoes the name of the stored mode. -/
theorem command_get_form_witness :
    charAt "P\n" 1 = '\n' ∧ (command motor1 "P\n").ret = 1 ∧
    (command motor1 "P\n").motor = motor1 ∧
    (command motor1 "P\n").out =
      [PrintCall.print " PID velocity| ", PrintCall.print "P: ",
       PrintCall.printlnFloat motor1.PID_velocity.P] ∧
    (command motor1 "C\n").out =
      [PrintCall.print "Control: ", PrintCall.println (controllerName motor1.controller)] :=
  ⟨by decide, ((command_get_form motor1 "P\n" (by decide)).1 (by decide)).1,
    ((command_get_form motor1 "P\n" (by decide)).1 (by decide)).2,
    ((command_get_form motor1 "P\n" (by decide)).2 (by decide)).1 (by decide),
    ((command_get_form motor1 "C\n" (by decide)).2 (by decide)).2.2.2.2.2.2.2.2.1 (by decide)⟩

/-- C13: with a monitoring port attached, the command `V` whose value casts to `0`, `1`,
`2` or `3` returns `1`, leaves the motor state unchanged and prints one label followed by
exactly one value: `voltage.q`, the stored `shaft_velocity`, the stored `shaft_angle` and
`target` respectively. -/
theorem command_V_reports (m : FOCMotor) (user_command : String)
    (hkey : charAt user_command 0 = 'V') (hp : m.monitor_port.isSome = true) :
    (toInt (toFloat (substring user_command 1)) = 0 →
      command m user_command =
        ⟨1, m, [PrintCall.print "Uq: ", PrintCall.printlnFloat m.voltage.q]⟩) ∧
    (toInt (toFloat (substring user_command 1)) = 1 →
      command m user_command =
        ⟨1, m, [PrintCall.print "Velocity: ", PrintCall.printlnFloat m.shaft_velocity]⟩) ∧
    (toInt (toFloat (substring user_command 1)) = 2 →
      command m user_command =
        ⟨1, m, [PrintCall.print "Angle: ", PrintCall.printlnFloat m.shaft_angle]⟩) ∧
    (toInt (toFloat (substring user_command 1)) = 3 →
      command m user_command =
        ⟨1, m, [PrintCall.print "Target: ", PrintCall.printlnFloat m.target]⟩) := by
  rw [command_key_V m user_command hkey]
  refine ⟨?_, ?_, ?_, ?_⟩ <;> intro hn <;> simp [commandV, hn, emit, hp]

/-- Witness of C13: `V2` on `motor1` prints the label and the stored shaft angle. -/
theorem command_V_reports_witness :
    charAt "V2" 0 = 'V' ∧ motor1.monitor_port.isSome = true ∧
    command motor1 "V2" =
      ⟨1, motor1, [PrintCall.print "Angle: ", PrintCall.printlnFloat motor1.shaft_angle]⟩ := by
  refine ⟨by decide, by decide, (command_V_reports motor1 "V2" (by decide) (by decide)).2.2.1 ?_⟩
  simp [toInt, toFloat, substring, atof, readSign, skipSpace, readDigits, isSpace,
    readExponent]

/-- C14: `monitor()` changes no field of the motor state; without a monitoring port it
prints nothing; with a port it prints exactly one row of three tab-separated values:
`voltage.q`, `shaft_velocity_sp`, `shaft_velocity` for velocity and velocity_openloop,
`voltage.q`, `shaft_angle_sp`, `shaft_angle` for angle and angle_openloop, and
`voltage.q`, `shaft_angle`, `shaft_velocity` for torque. -/
theorem monitor_row (m : FOCMotor) :
    (monitor m).1 = m ∧
    (m.monitor_port = none → (monitor m).2 = []) ∧
    (m.monitor_port.isSome = true →
      ((m.controller = MotionControlType.velocity ∨
          m.controller = MotionControlType.velocity_openloop) →
        (monitor m).2 =
          [PrintCall.printFloat m.voltage.q, PrintCall.print "\t",
           PrintCall.printFloat m.shaft_velocity_sp, PrintCall.print "\t",
           PrintCall.printlnFloat m.shaft_velocity]) ∧
      ((m.controller = MotionControlType.angle ∨
          m.controller = MotionControlType.angle_openloop) →
        (monitor m).2 =
          [PrintCall.printFloat m.voltage.q, PrintCall.print "\t",
           PrintCall.printFloat m.shaft_angle_sp, PrintCall.print "\t",
           PrintCall.printlnFloat m.shaft_angle]) ∧
      (m.controller = MotionControlType.torque →
        (monitor m).2 =
          [PrintCall.printFloat m.voltage.q, PrintCall.print "\t",
           PrintCall.printFloat m.shaft_angle, PrintCall.print "\t",
           PrintCall.printlnFloat m.shaft_velocity])) := by
  refine ⟨?_, ?_, ?_⟩
  · unfold monitor
    split_ifs
    · rfl
    · cases m.controller <;> rfl
  · intro hn
    simp [monitor, hn]
  · intro hp
    have hnn : m.monitor_port.isNone = false := by
      cases hm : m.monitor_port with
      | none => rw [hm] at hp; exact absurd hp (by decide)
      | some p => rfl
    refine ⟨?_, ?_, ?_⟩
    · rintro (h | h) <;> simp [monitor, hnn, h]
    · rintro (h | h) <;> simp [monitor, hnn, h]
    · intro h
      simp [monitor, hnn, h]

/-- Witness of C14: `motor1` has a port and is in velocity mode; `motor0` has no port. -/
theorem monitor_row_witness :
    motor0.monitor_port = none ∧ (monitor motor0).2 = [] ∧
    motor1.monitor_port.isSome = true ∧
    (monitor motor1).2 =
      [PrintCall.printFloat motor1.voltage.q, PrintCall.print "\t",
       PrintCall.printFloat motor1.shaft_velocity_sp, PrintCall.print "\t",
       PrintCall.printlnFloat motor1.shaft_velocity] :=
  ⟨rfl, (monitor_row motor0).2.1 rfl, by decide,
    ((monitor_row motor1).2.2 (by decide)).1 (Or.inl (by decide))⟩

/-! ## Estimator: further theorems -/

/-- C15: with a sensor linked, for the raw velocity `w` the sensor returns and any filter
operator `LPF`, `shaftVelocity()` returns `sensor_direction * y` where `y` is the output of
the filter applied to `w` itself; the filter object is the only member the call updates,
so the stored `shaft_velocity` is unchanged. -/
theorem shaftVelocity_linked (LPF : LowPassFilter → ℚ → ℚ × LowPassFilter) (m : FOCMotor)
    (s : Sensor) (h : m.sensor = some s) :
    (shaftVelocity LPF m).1 =
      (m.sensor_direction : ℚ) * (LPF m.LPF_velocity s.getVelocity).1 ∧
    (shaftVelocity LPF m).2 =
      { m with LPF_velocity := (LPF m.LPF_velocity s.getVelocity).2 } ∧
    (shaftVelocity LPF m).2.shaft_velocity = m.shaft_velocity := by
  simp [shaftVelocity, h]

/-- Witness of C15: `motor0` with its filter memory at `1`, direction `-1` and a sensor
reading the velocity `5`; the filter sees `5`, and filtering `-5` instead would give
another value. -/
theorem shaftVelocity_linked_witness :
    (shaftVelocity lpfStep
      { motor0 with sensor := some ⟨3 / 2, 5⟩, LPF_velocity := ⟨1 / 100, 1⟩ }).1 =
      -((lpfStep ⟨1 / 100, 1⟩ 5).1) ∧
    (shaftVelocity lpfStep
      { motor0 with sensor := some ⟨3 / 2, 5⟩, LPF_velocity := ⟨1 / 100, 1⟩ }).1 ≠
      (lpfStep ⟨1 / 100, 1⟩ (-5)).1 ∧
    (shaftVelocity lpfStep
      { motor0 with sensor := some ⟨3 / 2, 5⟩,
                    LPF_velocity := ⟨1 / 100, 1⟩ }).2.shaft_velocity = 2 := by
  have h := shaftVelocity_linked lpfStep
    { motor0 with sensor := some ⟨3 / 2, 5⟩, LPF_velocity := ⟨1 / 100, 1⟩ } ⟨3 / 2, 5⟩ rfl
  refine ⟨?_, ?_, ?_⟩
  · rw [h.1]
    norm_num [motor0]
  · rw [h.1]
    norm_num [motor0, lpfStep]
  · rw [h.2.2]
    rfl

/-- C16: for every motor state, `electricalAngle()` is the normalization of
`(shaft_angle + sensor_offset) * pole_pairs - zero_electric_angle` computed from the stored
`shaft_angle`; the result is the same whatever sensor is linked or unlinked and whatever
the sensor reads, and the call leaves the motor state unchanged. -/
theorem electricalAngle_from_stored (_2PI : ℚ) (m : FOCMotor) (_sensor : Option Sensor) :
    (electricalAngle _2PI m).1 =
      _normalizeAngle _2PI
        ((m.shaft_angle + m.sensor_offset) * (m.pole_pairs : ℚ) - m.zero_electric_angle) ∧
    (electricalAngle _2PI (linkSensor m _sensor)).1 = (electricalAngle _2PI m).1 ∧
    (electricalAngle _2PI m).2 = m :=
  ⟨rfl, rfl, rfl⟩

/-! ## Mode model and sink: theorems -/

/-- C17: `controller` changes only through a `C` command in set form and
`torque_controller` only through a `T` command in set form: `shaftAngle()`,
`shaftVelocity()`, `electricalAngle()`, `monitor()`, `linkSensor()` and
`linkCurrentSense()` leave both unchanged, every `command()` call whose key is not `C` or
whose second character is the line terminator leaves `controller` unchanged, and every
`command()` call whose key is not `T` or whose second character is the line terminator
leaves `torque_controller` unchanged. -/
theorem mode_changes_only_by_set_command (LPF : LowPassFilter → ℚ → ℚ × LowPassFilter)
    (_2PI : ℚ) (m : FOCMotor) (_sensor : Option Sensor)
    (_current_sense : Option CurrentSense) (user_command : String) :
    ((shaftAngle m).2.controller = m.controller ∧
      (shaftAngle m).2.torque_controller = m.torque_controller) ∧
    ((shaftVelocity LPF m).2.controller = m.controller ∧
      (shaftVelocity LPF m).2.torque_controller = m.torque_controller) ∧
    ((electricalAngle _2PI m).2.controller = m.controller ∧
      (electricalAngle _2PI m).2.torque_controller = m.torque_controller) ∧
    ((monitor m).1.controller = m.controller ∧
      (monitor m).1.torque_controller = m.torque_controller) ∧
    ((linkSensor m _sensor).controller = m.controller ∧
      (linkSensor m _sensor).torque_controller = m.torque_controller) ∧
    ((linkCurrentSense m _current_sense).controller = m.controller ∧
      (linkCurrentSense m _current_sense).torque_controller = m.torque_controller) ∧
    ((charAt user_command 0 ≠ 'C' ∨ charAt user_command 1 = '\n') →
      (command m user_command).motor.controller = m.controller) ∧
    ((charAt user_command 0 ≠ 'T' ∨ charAt user_command 1 = '\n') →
      (command m user_command).motor.torque_controller = m.torque_controller) := by
  have hmon : (monitor m).1 = m := by
    unfold monitor
    split_ifs
    · rfl
    · cases m.controller <;> rfl
  refine ⟨?_, ?_, ⟨rfl, rfl⟩, ?_, ⟨rfl, rfl⟩, ⟨rfl, rfl⟩,
    command_controller_unchanged m user_command,
    command_torque_controller_unchanged m user_command⟩
  · cases hs : m.sensor <;> simp [shaftAngle, hs]
  · cases hs : m.sensor <;> simp [shaftVelocity, hs]
  · rw [hmon]
    exact ⟨rfl, rfl⟩

/-- Witness of C17: on `motor0`, in velocity mode, the `T` set `T1`, the get form of `C`
and the limit command `L10` leave `controller` at velocity, and `C4` leaves
`torque_controller` at voltage. -/
theorem mode_changes_only_by_set_command_witness :
    (command motor0 "T1").motor.controller = MotionControlType.velocity ∧
    (command motor0 "C\n").motor.controller = MotionControlType.velocity ∧
    (command motor0 "L10").motor.controller = MotionControlType.velocity ∧
    (command motor0 "C4\n").motor.torque_controller = TorqueControlType.voltage :=
  ⟨(mode_changes_only_by_set_command lpfStep 6 motor0 none none "T1").2.2.2.2.2.2.1
      (Or.inl (by decide)),
    (mode_changes_only_by_set_command lpfStep 6 motor0 none none "C\n").2.2.2.2.2.2.1
      (Or.inr (by decide)),
    (mode_changes_only_by_set_command lpfStep 6 motor0 none none "L10").2.2.2.2.2.2.1
      (Or.inl (by decide)),
    (mode_changes_only_by_set_command lpfStep 6 motor0 none none "C4\n").2.2.2.2.2.2.2
      (Or.inl (by decide))⟩

/-- C18 (the code at the failing input): with a port attached, `V9` returns `0` and makes
no call on the port, neither a label nor an error word, while the out-of-range `C9` and
`T9` print their label and the word `error`. -/
theorem command_V9_prints_nothing :
    motor1.monitor_port.isSome = true ∧
    (command motor1 "V9").ret = 0 ∧ (command motor1 "V9").out = [] ∧
    (command motor1 "C9").out = [PrintCall.print "Control: ", PrintCall.println "error"] ∧
    (command motor1 "T9").out = [PrintCall.print "Torque: ", PrintCall.println "error"] := by
  have e : toInt (toFloat (substring "V9" 1)) = 9 := by
    simp [toInt, toFloat, substring, atof, readSign, skipSpace, readDigits, isSpace,
      readExponent]
  have eC : toInt (toFloat (substring "C9" 1)) = 9 := by
    simp [toInt, toFloat, substring, atof, readSign, skipSpace, readDigits, isSpace,
      readExponent]
  have eT : toInt (toFloat (substring "T9" 1)) = 9 := by
    simp [toInt, toFloat, substring, atof, readSign, skipSpace, readDigits, isSpace,
      readExponent]
  have hp : motor1.monitor_port.isSome = true := by decide
  have gC : (charAt "C9" 1 == '\n') = false := by decide
  have gT : (charAt "T9" 1 == '\n') = false := by decide
  refine ⟨hp, ?_, ?_, ?_, ?_⟩
  · rw [command_key_V motor1 "V9" (by decide)]
    simp [commandV, e]
  · rw [command_key_V motor1 "V9" (by decide)]
    simp [commandV, e]
  · rw [command_key_C motor1 "C9" (by decide), gC]
    simp [commandC, eC, emit, hp]
  · rw [command_key_T motor1 "T9" (by decide), gT]
    simp [commandT, eT, emit, hp]

/-- C19 (counterexample): the one-character command `P`, with no line terminator, is not
a query: it overwrites the velocity P gain `1/2` of `motor0` with `0`. -/
theorem command_bare_key_is_set :
    length "P" = 1 ∧ motor0.PID_velocity.P = 1 / 2 ∧
    (command motor0 "P").motor.PID_velocity.P = 0 ∧
    (command motor0 "P").motor ≠ motor0 := by
  have e : toFloat (substring "P" 1) = 0 := by
    simp [toFloat, substring, atof, readSign, skipSpace, readDigits, isSpace, readExponent]
  have h : (command motor0 "P").motor.PID_velocity.P = 0 := by
    rw [command_key_P motor0 "P" (by decide), e]
    simp [show charAt "P" 1 ≠ '\n' by decide]
  refine ⟨by decide, by norm_num [motor0], h, ?_⟩
  intro hc
  rw [hc] at h
  norm_num [motor0] at h

/-- C19 (amended): for every key in `P I D R F L K N C T`, the one-character command made
of the key alone, with no line terminator, is a set of the value `0`: it returns `1` and
writes `0` to the field or fields the key names (for `C` the mode of integer `0`, torque;
for `T` the mode of integer `0`, voltage), leaving every other field unchanged. -/
theorem command_bare_key_sets_zero (m : FOCMotor) :
    ((command m "P").ret = 1 ∧
      (command m "P").motor =
        { m with
          PID_velocity := { m.PID_velocity with P := 0 } }) ∧
    ((command m "I").ret = 1 ∧
      (command m "I").motor =
        { m with
          PID_velocity := { m.PID_velocity with I := 0 } }) ∧
    ((command m "D").ret = 1 ∧
      (command m "D").motor =
        { m with
          PID_velocity := { m.PID_velocity with D := 0 } }) ∧
    ((command m "R").ret = 1 ∧
      (command m "R").motor =
        { m with
          PID_velocity := { m.PID_velocity with output_ramp := 0 } }) ∧
    ((command m "F").ret = 1 ∧
      (command m "F").motor =
        { m with
          LPF_velocity := { m.LPF_velocity with Tf := 0 } }) ∧
    ((command m "L").ret = 1 ∧
      (command m "L").motor =
        { m with
          voltage_limit := 0
          PID_velocity := { m.PID_velocity with limit := 0 } }) ∧
    ((command m "K").ret = 1 ∧
      (command m "K").motor =
        { m with
          P_angle := { m.P_angle with P := 0 } }) ∧
    ((command m "N").ret = 1 ∧
      (command m "N").motor =
        { m with
          velocity_limit := 0
          P_angle := { m.P_angle with limit := 0 } }) ∧
    ((command m "C").ret = 1 ∧
      (command m "C").motor = { m with controller := MotionControlType.torque }) ∧
    ((command m "T").ret = 1 ∧
      (command m "T").motor = { m with torque_controller := TorqueControlType.voltage }) := by
  refine ⟨?_, ?_, ?_, ?_, ?_, ?_, ?_, ?_, ?_, ?_⟩
  · have e : toFloat (substring "P" 1) = 0 := by
      simp [toFloat, substring, atof, readSign, skipSpace, readDigits, isSpace, readExponent]
    rw [command_key_P m "P" (by decide), e]
    simp [show charAt "P" 1 ≠ '\n' by decide]
  · have e : toFloat (substring "I" 1) = 0 := by
      simp [toFloat, substring, atof, readSign, skipSpace, readDigits, isSpace, readExponent]
    rw [command_key_I m "I" (by decide), e]
    simp [show charAt "I" 1 ≠ '\n' by decide]
  · have e : toFloat (substring "D" 1) = 0 := by
      simp [toFloat, substring, atof, readSign, skipSpace, readDigits, isSpace, readExponent]
    rw [command_key_D m "D" (by decide), e]
    simp [show charAt "D" 1 ≠ '\n' by decide]
  · have e : toFloat (substring "R" 1) = 0 := by
      simp [toFloat, substring, atof, readSign, skipSpace, readDigits, isSpace, readExponent]
    rw [command_key_R m "R" (by decide), e]
    simp [show charAt "R" 1 ≠ '\n' by decide]
  · have e : toFloat (substring "F" 1) = 0 := by
      simp [toFloat, substring, atof, readSign, skipSpace, readDigits, isSpace, readExponent]
    rw [command_key_F m "F" (by decide), e]
    simp [show charAt "F" 1 ≠ '\n' by decide]
  · have e : toFloat (substring "L" 1) = 0 := by
      simp [toFloat, substring, atof, readSign, skipSpace, readDigits, isSpace, readExponent]
    rw [command_key_L m "L" (by decide), e]
    simp [show charAt "L" 1 ≠ '\n' by decide]
  · have e : toFloat (substring "K" 1) = 0 := by
      simp [toFloat, substring, atof, readSign, skipSpace, readDigits, isSpace, readExponent]
    rw [command_key_K m "K" (by decide), e]
    simp [show charAt "K" 1 ≠ '\n' by decide]
  · have e : toFloat (substring "N" 1) = 0 := by
      simp [toFloat, substring, atof, readSign, skipSpace, readDigits, isSpace, readExponent]
    rw [command_key_N m "N" (by decide), e]
    simp [show charAt "N" 1 ≠ '\n' by decide]
  · have e : toInt (toFloat (substring "C" 1)) = ((0 : ℕ) : ℤ) := by
      simp [toInt, toFloat, substring, atof, readSign, skipSpace, readDigits, isSpace,
        readExponent]
    have g : (charAt "C" 1 == '\n') = false := by decide
    rw [command_key_C m "C" (by decide), g, commandC_set m _ [] 0 MotionControlType.torque e (by decide)]
    exact ⟨rfl, rfl⟩
  · have e : toInt (toFloat (substring "T" 1)) = ((0 : ℕ) : ℤ) := by
      simp [toInt, toFloat, substring, atof, readSign, skipSpace, readDigits, isSpace,
        readExponent]
    have g : (charAt "T" 1 == '\n') = false := by decide
    rw [command_key_T m "T" (by decide), g, commandT_set m _ [] 0 TorqueControlType.voltage e (by decide)]
    exact ⟨rfl, rfl⟩

/-- C20: attaching or detaching the monitoring port does not influence the control state:
for every command string and every motor state `m`, the handler run on `m` with any port
setting `p` returns the same value as on `m` and yields the same motor state up to the
port field; and when no port is attached the handler makes no call on a port. -/
theorem command_port_independent (m : FOCMotor) (user_command : String) (p : Option Print) :
    (command { m with monitor_port := p } user_command).ret = (command m user_command).ret ∧
    (command { m with monitor_port := p } user_command).motor =
      { (command m user_command).motor with monitor_port := p } ∧
    (m.monitor_port = none → (command m user_command).out = []) := by
  rcases key_cases user_command with hl | hk | ⟨hl, hk⟩
  · simp [command, hl]
  · rcases hk with k | k | k | k | k | k | k | k | k | k | k
    · rw [command_key_P _ user_command k, command_key_P m user_command k]
      refine ⟨rfl, ?_, fun hn => by simp [emit, hn]⟩
      by_cases hg : charAt user_command 1 = '\n' <;> simp [hg]
    · rw [command_key_I _ user_command k, command_key_I m user_command k]
      refine ⟨rfl, ?_, fun hn => by simp [emit, hn]⟩
      by_cases hg : charAt user_command 1 = '\n' <;> simp [hg]
    · rw [command_key_D _ user_command k, command_key_D m user_command k]
      refine ⟨rfl, ?_, fun hn => by simp [emit, hn]⟩
      by_cases hg : charAt user_command 1 = '\n' <;> simp [hg]
    · rw [command_key_R _ user_command k, command_key_R m user_command k]
      refine ⟨rfl, ?_, fun hn => by simp [emit, hn]⟩
      by_cases hg : charAt user_command 1 = '\n' <;> simp [hg]
    · rw [command_key_F _ user_command k, command_key_F m user_command k]
      refine ⟨rfl, ?_, fun hn => by simp [emit, hn]⟩
      by_cases hg : charAt user_command 1 = '\n' <;> simp [hg]
    · rw [command_key_L _ user_command k, command_key_L m user_command k]
      refine ⟨rfl, ?_, fun hn => by simp [emit, hn]⟩
      by_cases hg : charAt user_command 1 = '\n' <;> simp [hg]
    · rw [command_key_K _ user_command k, command_key_K m user_command k]
      refine ⟨rfl, ?_, fun hn => by simp [emit, hn]⟩
      by_cases hg : charAt user_command 1 = '\n' <;> simp [hg]
    · rw [command_key_N _ user_command k, command_key_N m user_command k]
      refine ⟨rfl, ?_, fun hn => by simp [emit, hn]⟩
      by_cases hg : charAt user_command 1 = '\n' <;> simp [hg]
    · rw [command_key_C _ user_command k, command_key_C m user_command k]
      exact ⟨(commandC_port m _ _ [] [] p).1, (commandC_port m _ _ [] [] p).2,
        fun hn => commandC_out_of_none m _ _ [] hn⟩
    · rw [command_key_T _ user_command k, command_key_T m user_command k]
      exact ⟨(commandT_port m _ _ [] [] p).1, (commandT_port m _ _ [] [] p).2,
        fun hn => commandT_out_of_none m _ _ [] hn⟩
    · rw [command_key_V _ user_command k, command_key_V m user_command k]
      exact ⟨(commandV_port m _ [] [] p).1, (commandV_port m _ [] [] p).2,
        fun hn => commandV_out_of_none m _ [] hn⟩
  · rw [command_key_default _ user_command hl hk, command_key_default m user_command hl hk]
    exact ⟨rfl, rfl, fun hn => by simp [emit, hn]⟩

/-- Witness of C20: `L10` on `motor0` (no port) and on `motor0` with a port attached. -/
theorem command_port_independent_witness :
    motor0.monitor_port = none ∧
    (command { motor0 with monitor_port := some ⟨0⟩ } "L10").ret = (command motor0 "L10").ret ∧
    (command { motor0 with monitor_port := some ⟨0⟩ } "L10").motor =
      { (command motor0 "L10").motor with monitor_port := some ⟨0⟩ } ∧
    (command motor0 "L10").out = [] :=
  ⟨rfl, (command_port_independent motor0 "L10" (some ⟨0⟩)).1,
    (command_port_independent motor0 "L10" (some ⟨0⟩)).2.1,
    (command_port_independent motor0 "L10" (some ⟨0⟩)).2.2 rfl⟩

end FOC
